import Mathlib

/-!
# CRD typed clientset demo (`main.go`): a verification development

The program drives a Tekton `Task` through Create → Update (inside
`retry.RetryOnConflict`) → List → Delete against a typed client.

The embedding is shallow.  The cluster behind the typed client is a
parameter (`TaskInterface σ`, one state-passing function per client method, for
an arbitrary state type `σ`), so a statement quantified over the client ranges
over every possible behaviour of the store.  Every client call is written to a
call log and every `fmt.Print*` to an output log, both kept in `World`; Go
panics are the `Except.error` branch.
-/

namespace CRDTypedClientset

/-! ## Data model -/

/-- The fields of `v1beta1.Step` the program touches. -/
structure Step where
  Name : String
  Image : String
  Command : List String
  deriving DecidableEq, Repr

/-- The fields of `v1beta1.Task` the program touches: `ObjectMeta.Name`,
`ObjectMeta.ResourceVersion` (the version token; the Go zero value `""` means
"none") and `Spec.Steps`. -/
structure Task where
  Name : String
  ResourceVersion : String
  Steps : List Step
  deriving DecidableEq, Repr

/-- The type `metav1.StatusReason` (`type StatusReason string`). -/
abbrev StatusReason := String

/-- The constant `metav1.StatusReasonUnknown`. -/
def StatusReasonUnknown : StatusReason := ""

/-- The constant `metav1.StatusReasonNotFound`. -/
def StatusReasonNotFound : StatusReason := "NotFound"

/-- The constant `metav1.StatusReasonAlreadyExists`. -/
def StatusReasonAlreadyExists : StatusReason := "AlreadyExists"

/-- The constant `metav1.StatusReasonConflict`. -/
def StatusReasonConflict : StatusReason := "Conflict"

/-- The constant `metav1.StatusReasonServiceUnavailable`. -/
def StatusReasonServiceUnavailable : StatusReason := "ServiceUnavailable"

/-- The table `knownReasons` of `k8s.io/apimachinery/pkg/api/errors`: every
reason constant of `metav1` except `StatusReasonUnknown`. -/
def knownReasons : List StatusReason :=
  ["Unauthorized", "Forbidden", StatusReasonNotFound, StatusReasonAlreadyExists,
    StatusReasonConflict, "Gone", "Invalid", "ServerTimeout", "Timeout", "TooManyRequests",
    "BadRequest", "MethodNotAllowed", "NotAcceptable", "RequestEntityTooLarge",
    "UnsupportedMediaType", "InternalError", "Expired", StatusReasonServiceUnavailable]

/-- The constant `http.StatusConflict`. -/
def StatusConflict : Int := 409

/-- An error returned by a client method, as `errors.reasonAndCodeForError` sees
it: the `Reason` and the `Code` of its `metav1.Status`, and its message.  An
error that is not an API status (a transport failure) has reason
`StatusReasonUnknown` and code 0. -/
structure StatusError where
  Reason : StatusReason
  Code : Int
  Message : String
  deriving DecidableEq, Repr

/-- The function `errors.reasonAndCodeForError`. -/
def reasonAndCodeForError (err : StatusError) : StatusReason × Int :=
  (err.Reason, err.Code)

/-- The function `errors.IsConflict`:
```go
reason, code := reasonAndCodeForError(err)
if reason == metav1.StatusReasonConflict {
    return true
}
if _, ok := knownReasons[reason]; !ok && code == http.StatusConflict {
    return true
}
return false
``` -/
def IsConflict (err : StatusError) : Bool :=
  let rc := reasonAndCodeForError err
  if rc.1 = StatusReasonConflict then true
  else if !knownReasons.contains rc.1 && decide (rc.2 = StatusConflict) then true
  else false

/-- The type `metav1.DeletionPropagation`. -/
inductive DeletionPropagation
  | Orphan
  | Background
  | Foreground
  deriving DecidableEq, Repr

/-- The one field of `metav1.DeleteOptions` the program sets. -/
structure DeleteOptions where
  PropagationPolicy : Option DeletionPropagation
  deriving DecidableEq, Repr

/-- The methods of the typed client `taskClient` that `main` calls (the
generated `TaskInterface` of the Tekton clientset, bound to namespace
`"default"`), as state-passing functions over the state `σ` of whatever is
behind the client.  A Go result pair `(obj, err)` is an `Except`: the program
never looks at `obj` when `err != nil`. -/
structure TaskInterface (σ : Type) where
  Create : σ → Task → Except StatusError Task × σ
  Get : σ → String → Except StatusError Task × σ
  Update : σ → Task → Except StatusError Task × σ
  Delete : σ → String → DeleteOptions → Option StatusError × σ
  List : σ → Except StatusError (List Task) × σ

/-- One client call as it happened: the arguments sent and the answer received. -/
inductive Call
  | Create (obj : Task) (res : Except StatusError Task)
  | Get (name : String) (res : Except StatusError Task)
  | Update (obj : Task) (res : Except StatusError Task)
  | List (res : Except StatusError (List Task))
  | Delete (name : String) (opts : DeleteOptions) (res : Option StatusError)

/-- An argument of a `fmt.Printf` call. -/
inductive Arg
  | str (s : String)
  | strs (ss : List String)
  deriving DecidableEq, Repr

/-- One `fmt.Printf` / `fmt.Println` call: format string and arguments, not
rendered. -/
structure Printed where
  format : String
  args : List Arg
  deriving DecidableEq, Repr

/-- The values the program panics with. -/
inductive Panic
  /-- The call `panic(err)` with an error returned by the client. -/
  | err (e : StatusError)
  /-- The call `panic(fmt.Errorf(format, e))`. -/
  | errorf (format : String) (e : StatusError)
  /-- The call `panic(err)` with the error of `scanner.Err()` in `prompt`. -/
  | scanner (msg : String)
  /-- The runtime panic of an index expression `Steps[index]` out of range. -/
  | indexOutOfRange (index length : Nat)
  deriving DecidableEq, Repr

/-- Everything outside the program: the state behind the client, the outcome
`scanner.Err()` will have at the n-th `prompt()` (`none`: a line was read or
the input ended), the number of prompts so far, and the two logs. -/
structure World (σ : Type) where
  store : σ
  scanErr : Nat → Option String
  prompts : Nat
  calls : List Call
  stdout : List Printed

/-- Append one print to the output log. -/
def World.print {σ : Type} (w : World σ) (p : Printed) : World σ :=
  { w with stdout := w.stdout ++ [p] }

/-- Append one client call to the call log and install the state it left. -/
def World.record {σ : Type} (w : World σ) (c : Call) (s : σ) : World σ :=
  { w with store := s, calls := w.calls ++ [c] }

/-- The call `fmt.Println(s)`. -/
def Println (s : String) : Printed := ⟨s ++ "\n", []⟩

/-! ## The retry library (`k8s.io/client-go/util/retry`, `k8s.io/apimachinery/pkg/util/wait`)

`main` calls `retry.RetryOnConflict(retry.DefaultRetry, fn)`.  These are the
library's definitions, with the sleeps between attempts left out. -/

/-- The type `wait.Backoff`; `Duration`, `Factor` and `Jitter` only set the
length of the sleeps. -/
structure Backoff where
  Steps : Nat
  deriving DecidableEq, Repr

/-- The value `retry.DefaultRetry`:
`wait.Backoff{Steps: 5, Duration: 10ms, Factor: 1.0, Jitter: 0.1}`. -/
def DefaultRetry : Backoff := { Steps := 5 }

/-- What `wait.ExponentialBackoff` returns: `nil`, the error of the condition,
or the sentinel `wait.ErrWaitTimeout`. -/
inductive WaitError (ε : Type)
  | nil
  | err (e : ε)
  | ErrWaitTimeout

/-- The function `wait.ExponentialBackoff`:
```go
for backoff.Steps > 0 {
    if ok, err := runConditionWithCrashProtection(condition); err != nil || ok {
        return err
    }
    if backoff.Steps == 1 {
        break
    }
    time.Sleep(backoff.Step())   // Step() decrements backoff.Steps
}
return ErrWaitTimeout
```
A panic of the condition crosses `runConditionWithCrashProtection` (it logs
and panics again). -/
def ExponentialBackoff {ω ε : Type} :
    Nat → (ω → Except Panic (Bool × Option ε) × ω) → ω → Except Panic (WaitError ε) × ω
  | 0, _, w => (.ok .ErrWaitTimeout, w)
  | Steps + 1, condition, w =>
    match condition w with
    | (.error p, w1) => (.error p, w1)
    | (.ok (_, some err), w1) => (.ok (.err err), w1)
    | (.ok (true, none), w1) => (.ok .nil, w1)
    | (.ok (false, none), w1) =>
      if Steps + 1 = 1 then (.ok .ErrWaitTimeout, w1)
      else ExponentialBackoff Steps condition w1

/-- The closure `retry.OnError` hands to `wait.ExponentialBackoff`:
```go
func() (bool, error) {
    err := fn()
    switch {
    case err == nil:
        return true, nil
    case retriable(err):
        lastErr = err
        return false, nil
    default:
        return false, err
    }
}
```
The captured variable `lastErr` travels next to the world. -/
def OnError.condition {ω ε : Type} (retriable : ε → Bool)
    (fn : ω → Except Panic (Option ε) × ω) (st : ω × Option ε) :
    Except Panic (Bool × Option ε) × (ω × Option ε) :=
  match fn st.1 with
  | (.error p, w1) => (.error p, (w1, st.2))
  | (.ok none, w1) => (.ok (true, none), (w1, st.2))
  | (.ok (some err), w1) =>
    if retriable err then (.ok (false, none), (w1, some err))
    else (.ok (false, some err), (w1, st.2))

/-- The function `retry.OnError`:
```go
var lastErr error
err := wait.ExponentialBackoff(backoff, func() (bool, error) { ... })
if err == wait.ErrWaitTimeout {
    err = lastErr
}
return err
``` -/
def OnError {ω ε : Type} (backoff : Backoff) (retriable : ε → Bool)
    (fn : ω → Except Panic (Option ε) × ω) (w : ω) : Except Panic (Option ε) × ω :=
  match ExponentialBackoff backoff.Steps (OnError.condition retriable fn) (w, none) with
  | (.error p, st) => (.error p, st.1)
  | (.ok .nil, st) => (.ok none, st.1)
  | (.ok (.err e), st) => (.ok (some e), st.1)
  | (.ok .ErrWaitTimeout, st) => (.ok st.2, st.1)

/-- The function `retry.RetryOnConflict`:
`return OnError(backoff, errors.IsConflict, fn)`. -/
def RetryOnConflict {ω : Type} (backoff : Backoff)
    (fn : ω → Except Panic (Option StatusError) × ω) (w : ω) :
    Except Panic (Option StatusError) × ω :=
  OnError backoff IsConflict fn w

/-! ## The program (`main.go`) -/

/-- The function `prompt`: print, scan one line of standard input, panic when
the scanner reports an error, print a newline. -/
def prompt {σ : Type} (w : World σ) : Except Panic Unit × World σ :=
  let w1 := w.print ⟨"-> Press Return key to continue.", []⟩
  let w2 := { w1 with prompts := w1.prompts + 1 }
  match w.scanErr w.prompts with
  | some msg => (.error (.scanner msg), w2)
  | none => (.ok (), w2.print (Println ""))

/-- The object `main` submits to Create (lines 57-73). -/
def task : Task :=
  { Name := "sample-task"
    ResourceVersion := ""
    Steps := [{ Name := "step1", Image := "ubuntu", Command := ["echo", "Hello, Tekton!"] }] }

/-- The closure `main` passes to `retry.RetryOnConflict` (lines 87-106): one
attempt.  Its `resultTask` is a new variable (`:=`), local to the closure. -/
def updateAttempt {σ : Type} (taskClient : TaskInterface σ) (w : World σ) :
    Except Panic (Option StatusError) × World σ :=
  match taskClient.Get w.store "sample-task" with
  | (.error getErr, s1) =>
    (.error (.errorf "Failed to get the latest version of Task: %v" getErr),
      w.record (.Get "sample-task" (.error getErr)) s1)
  | (.ok resultTask, s1) =>
    let w1 := w.record (.Get "sample-task" (.ok resultTask)) s1
    match resultTask.Steps with
    | [] => (.error (.indexOutOfRange 0 0), w1)
    | step0 :: steps =>
      let w2 := w1.print
        ⟨"Before Update - Image: %s, Command: %v\n", [.str step0.Image, .strs step0.Command]⟩
      let step0a : Step := { step0 with Image := "busybox" }
      let step0b : Step := { step0a with Command := ["echo", "Updated Hello Tekton"] }
      let resultTask1 : Task := { resultTask with Steps := step0b :: steps }
      let w3 := w2.print
        ⟨"After Update - Image: %s, Command: %v\n", [.str step0b.Image, .strs step0b.Command]⟩
      match taskClient.Update w3.store resultTask1 with
      | (.error updateErr, s2) =>
        (.ok (some updateErr), w3.record (.Update resultTask1 (.error updateErr)) s2)
      | (.ok updated, s2) =>
        (.ok none, w3.record (.Update resultTask1 (.ok updated)) s2)

/-- The function `main` from line 55 on, where `taskClient` exists (lines 36-52
build it from the kubeconfig and panic before any call otherwise). -/
def main {σ : Type} (taskClient : TaskInterface σ) (w : World σ) :
    Except Panic Unit × World σ :=
  let w1 := w.print (Println "Creating Task...")
  match taskClient.Create w1.store task with
  | (.error err, s1) => (.error (.err err), w1.record (.Create task (.error err)) s1)
  | (.ok resultTask, s1) =>
    let w2 := (w1.record (.Create task (.ok resultTask)) s1).print
      ⟨"Created Task %q.\n", [.str resultTask.Name]⟩
    match resultTask.Steps with
    | [] => (.error (.indexOutOfRange 0 0), w2)
    | step0 :: _ =>
      let w3 := w2.print ⟨"Created Task %q. Image: %s, Message: %s\n",
        [.str resultTask.Name, .str step0.Image, .strs step0.Command]⟩
      match prompt w3 with
      | (.error p, w4) => (.error p, w4)
      | (.ok (), w4) =>
        let w5 := w4.print (Println "Updating Task...")
        match RetryOnConflict DefaultRetry (updateAttempt taskClient) w5 with
        | (.error p, w6) => (.error p, w6)
        | (.ok (some retryErr), w6) => (.error (.errorf "Update failed: %v" retryErr), w6)
        | (.ok none, w6) =>
          let w7 := w6.print (Println "Updated Task...")
          let w8 := w7.print ⟨"Updated Task %q. Image: %s, Message: %s\n",
            [.str resultTask.Name, .str step0.Image, .strs step0.Command]⟩
          match prompt w8 with
          | (.error p, w9) => (.error p, w9)
          | (.ok (), w9) =>
            let w10 := w9.print ⟨"Listing Tasks in namespace %q:\n", [.str "default"]⟩
            match taskClient.List w10.store with
            | (.error err, s2) => (.error (.err err), w10.record (.List (.error err)) s2)
            | (.ok taskList, s2) =>
              let w11 := w10.record (.List (.ok taskList)) s2
              let w12 := taskList.foldl
                (fun acc t => acc.print ⟨" * %s\n", [.str t.Name]⟩) w11
              match prompt w12 with
              | (.error p, w13) => (.error p, w13)
              | (.ok (), w13) =>
                let w14 := w13.print (Println "Deleting Task...")
                let deletePolicy := DeletionPropagation.Foreground
                let opts : DeleteOptions := { PropagationPolicy := some deletePolicy }
                match taskClient.Delete w14.store "sample-task" opts with
                | (some err, s3) =>
                  (.error (.err err), w14.record (.Delete "sample-task" opts (some err)) s3)
                | (none, s3) =>
                  (.ok (), (w14.record (.Delete "sample-task" opts none) s3).print
                    (Println "Deleted Task."))

/-! ## Vocabulary of the proofs -/

section Vocabulary
variable {ω ε σ : Type}

/-- The last two lines of `retry.OnError`, as a function of what
`wait.ExponentialBackoff` returned. -/
def OnError.finish (r : Except Panic (WaitError ε) × (ω × Option ε)) :
    Except Panic (Option ε) × ω :=
  match r with
  | (.error p, st) => (.error p, st.1)
  | (.ok .nil, st) => (.ok none, st.1)
  | (.ok (.err e), st) => (.ok (some e), st.1)
  | (.ok .ErrWaitTimeout, st) => (.ok st.2, st.1)

/-- The calls a run added to the log: the log after it, without the log before
it. -/
def newCalls (before after : World σ) : List Call :=
  after.calls.drop before.calls.length

/-- Is the call a `Get`? -/
def Call.isGet : Call → Bool
  | .Get _ _ => true
  | _ => false

/-- Is the call an `Update`? -/
def Call.isUpdate : Call → Bool
  | .Update _ _ => true
  | _ => false

/-- The object an attempt writes when it read `t` with steps `st :: sts`
(lines 98-99). -/
def candidate (t : Task) (st : Step) (sts : List Step) : Task :=
  { Name := t.Name
    ResourceVersion := t.ResourceVersion
    Steps := { Name := st.Name, Image := "busybox", Command := ["echo", "Updated Hello Tekton"] }
      :: sts }

/-- The calls of the whole retry loop with `n` steps and what it returns, the
answers being answers of the client `c`. -/
inductive RetryRun (c : TaskInterface σ) :
    Nat → List Call → Except Panic (Option StatusError) → Prop
  | noStep : RetryRun c 0 [] (.ok none)
  | getFailed (n : Nat) (s : σ) (e : StatusError)
      (hget : (c.Get s "sample-task").1 = .error e) :
      RetryRun c (n + 1) [.Get "sample-task" (.error e)]
        (.error (.errorf "Failed to get the latest version of Task: %v" e))
  | noSteps (n : Nat) (s : σ) (t : Task) (hget : (c.Get s "sample-task").1 = .ok t)
      (hsteps : t.Steps = []) :
      RetryRun c (n + 1) [.Get "sample-task" (.ok t)] (.error (.indexOutOfRange 0 0))
  | updated (n : Nat) (s s2 : σ) (t : Task) (st : Step) (sts : List Step) (u : Task)
      (hget : (c.Get s "sample-task").1 = .ok t) (hsteps : t.Steps = st :: sts)
      (hupd : (c.Update s2 (candidate t st sts)).1 = .ok u) :
      RetryRun c (n + 1)
        [.Get "sample-task" (.ok t), .Update (candidate t st sts) (.ok u)] (.ok none)
  | failed (n : Nat) (s s2 : σ) (t : Task) (st : Step) (sts : List Step) (e : StatusError)
      (hget : (c.Get s "sample-task").1 = .ok t) (hsteps : t.Steps = st :: sts)
      (hupd : (c.Update s2 (candidate t st sts)).1 = .error e) (hc : IsConflict e = false) :
      RetryRun c (n + 1)
        [.Get "sample-task" (.ok t), .Update (candidate t st sts) (.error e)] (.ok (some e))
  | exhausted (s s2 : σ) (t : Task) (st : Step) (sts : List Step) (e : StatusError)
      (hget : (c.Get s "sample-task").1 = .ok t) (hsteps : t.Steps = st :: sts)
      (hupd : (c.Update s2 (candidate t st sts)).1 = .error e) (hc : IsConflict e = true) :
      RetryRun c 1
        [.Get "sample-task" (.ok t), .Update (candidate t st sts) (.error e)] (.ok (some e))
  | retried (n : Nat) (s s2 : σ) (t : Task) (st : Step) (sts : List Step) (e : StatusError)
      (rest : List Call) (r : Except Panic (Option StatusError))
      (hget : (c.Get s "sample-task").1 = .ok t) (hsteps : t.Steps = st :: sts)
      (hupd : (c.Update s2 (candidate t st sts)).1 = .error e) (hc : IsConflict e = true)
      (hrest : RetryRun c (n + 1) rest r) :
      RetryRun c (n + 2)
        (.Get "sample-task" (.ok t) :: .Update (candidate t st sts) (.error e) :: rest) r

/-- What follows each call of the retry loop, and what the loop returns when
nothing follows. -/
def Follows (n : Nat) (r : Except Panic (Option StatusError)) (pre : List Call) (x : Call)
    (post : List Call) : Prop :=
  match x with
  | .Get _ (.error e) =>
    post = [] ∧ r = .error (.errorf "Failed to get the latest version of Task: %v" e)
  | .Get _ (.ok t) =>
    (t.Steps = [] ∧ post = [] ∧ r = .error (.indexOutOfRange 0 0)) ∨
    (∃ st sts res rest, t.Steps = st :: sts ∧ post = .Update (candidate t st sts) res :: rest)
  | .Update _ (.ok _) => post = [] ∧ r = .ok none
  | .Update _ (.error e) =>
    (post = [] ∧ r = .ok (some e) ∧
      (IsConflict e = true → (pre ++ [x]).countP Call.isGet = n)) ∨
    (IsConflict e = true ∧ (pre ++ [x]).countP Call.isGet < n ∧
      ∃ rr rest, post = .Get "sample-task" rr :: rest)
  | _ => False

/-- The foreground delete options `main` passes (lines 127-130). -/
def foreground : DeleteOptions := { PropagationPolicy := some DeletionPropagation.Foreground }

/-- The calls of `main` and how it ends, the update step being a run of the
retry loop with the five steps of `DefaultRetry`. -/
inductive MainRun (c : TaskInterface σ) : List Call → Except Panic Unit → Prop
  | createFailed (e : StatusError) : MainRun c [.Create task (.error e)] (.error (.err e))
  | createdNoSteps (t : Task) (hsteps : t.Steps = []) :
      MainRun c [.Create task (.ok t)] (.error (.indexOutOfRange 0 0))
  | scanFailed1 (t : Task) (msg : String) :
      MainRun c [.Create task (.ok t)] (.error (.scanner msg))
  | updatePanicked (t : Task) (utr : List Call) (p : Panic)
      (hrun : RetryRun c 5 utr (.error p)) :
      MainRun c (.Create task (.ok t) :: utr) (.error p)
  | updateFailed (t : Task) (utr : List Call) (e : StatusError)
      (hrun : RetryRun c 5 utr (.ok (some e))) :
      MainRun c (.Create task (.ok t) :: utr) (.error (.errorf "Update failed: %v" e))
  | scanFailed2 (t : Task) (utr : List Call) (msg : String)
      (hrun : RetryRun c 5 utr (.ok none)) :
      MainRun c (.Create task (.ok t) :: utr) (.error (.scanner msg))
  | listFailed (t : Task) (utr : List Call) (e : StatusError)
      (hrun : RetryRun c 5 utr (.ok none)) :
      MainRun c (.Create task (.ok t) :: (utr ++ [.List (.error e)])) (.error (.err e))
  | scanFailed3 (t : Task) (utr : List Call) (l : List Task) (msg : String)
      (hrun : RetryRun c 5 utr (.ok none)) :
      MainRun c (.Create task (.ok t) :: (utr ++ [.List (.ok l)])) (.error (.scanner msg))
  | deleteFailed (t : Task) (utr : List Call) (l : List Task) (e : StatusError)
      (hrun : RetryRun c 5 utr (.ok none)) :
      MainRun c (.Create task (.ok t) ::
        (utr ++ [.List (.ok l), .Delete "sample-task" foreground (some e)])) (.error (.err e))
  | completed (t : Task) (utr : List Call) (l : List Task)
      (hrun : RetryRun c 5 utr (.ok none)) :
      MainRun c (.Create task (.ok t) ::
        (utr ++ [.List (.ok l), .Delete "sample-task" foreground none])) (.ok ())

end Vocabulary

/-! ## Clients to run the program against -/

/-- A world with the state `s` behind the client, a standard input that never
fails, and empty logs. -/
def quiet {σ : Type} (s : σ) : World σ :=
  { store := s, scanErr := fun _ => none, prompts := 0, calls := [], stdout := [] }

/-- Modelled from the spec: the state of the Resource Store for one namespace
(sections 3 and 6): the stored objects, and a counter from which the version
tokens are drawn, advanced by every successful write. -/
structure Cluster where
  tasks : List Task
  revision : Nat
  deriving DecidableEq, Repr

/-- Modelled from the spec: the stored object of a given name, if any. -/
def Cluster.lookup (s : Cluster) (name : String) : Option Task :=
  s.tasks.find? (fun t => t.Name == name)

/-- Modelled from the spec: the Resource Store API of section 6 with no other
writer.  `create` fails with AlreadyExists on a taken name and otherwise stores
the object under a new version; `get` fails with NotFound on an absent name;
`update` is the conditional write (NotFound on an absent name, Conflict unless
the submitted version is the stored one, otherwise a new version); `delete`
removes the object (NotFound when absent); `list` returns what is stored. -/
def clusterClient : TaskInterface Cluster where
  Create s obj :=
    match s.lookup obj.Name with
    | some _ => (.error ⟨StatusReasonAlreadyExists, 409, obj.Name⟩, s)
    | none =>
      let stored := { obj with ResourceVersion := toString (s.revision + 1) }
      (.ok stored, { tasks := s.tasks ++ [stored], revision := s.revision + 1 })
  Get s name :=
    match s.lookup name with
    | some t => (.ok t, s)
    | none => (.error ⟨StatusReasonNotFound, 404, name⟩, s)
  Update s obj :=
    match s.lookup obj.Name with
    | none => (.error ⟨StatusReasonNotFound, 404, obj.Name⟩, s)
    | some cur =>
      if cur.ResourceVersion = obj.ResourceVersion then
        let stored := { obj with ResourceVersion := toString (s.revision + 1) }
        (.ok stored,
          { tasks := s.tasks.map (fun t => if t.Name == obj.Name then stored else t)
            revision := s.revision + 1 })
      else (.error ⟨StatusReasonConflict, 409, obj.Name⟩, s)
  Delete s name _ :=
    match s.lookup name with
    | none => (some ⟨StatusReasonNotFound, 404, name⟩, s)
    | some _ => (none, { s with tasks := s.tasks.filter (fun t => !(t.Name == name)) })
  List s := (.ok s.tasks, s)

/-- A client behind which another writer always wins: every `Get` answers a
task with one step, every `Update` answers Conflict. -/
def contended : TaskInterface Unit where
  Create _ obj := (.ok { obj with ResourceVersion := "1" }, ())
  Get _ name := (.ok ⟨name, "1", [⟨"step1", "ubuntu", ["echo", "Hello, Tekton!"]⟩]⟩, ())
  Update _ obj := (.error ⟨StatusReasonConflict, 409, obj.Name⟩, ())
  Delete _ _ _ := (none, ())
  List _ := (.ok [], ())

/-- A client whose every `Update` is answered with HTTP code 409 and no reason
(`StatusReasonUnknown`), which `errors.IsConflict` takes for a conflict. -/
def unlabelled : TaskInterface Unit where
  Create _ obj := (.ok { obj with ResourceVersion := "1" }, ())
  Get _ name := (.ok ⟨name, "1", [⟨"step1", "ubuntu", ["echo", "Hello, Tekton!"]⟩]⟩, ())
  Update _ obj := (.error ⟨StatusReasonUnknown, 409, obj.Name⟩, ())
  Delete _ _ _ := (none, ())
  List _ := (.ok [], ())

/-- A client whose `Get` answers a task without steps. -/
def stepless : TaskInterface Unit where
  Create _ obj := (.ok { obj with ResourceVersion := "1" }, ())
  Get _ name := (.ok ⟨name, "1", []⟩, ())
  Update _ obj := (.ok obj, ())
  Delete _ _ _ := (none, ())
  List _ := (.ok [], ())

/-- A client whose `List` fails. -/
def unlistable : TaskInterface Unit where
  Create _ obj := (.ok { obj with ResourceVersion := "1" }, ())
  Get _ name := (.ok ⟨name, "1", [⟨"step1", "ubuntu", ["echo", "Hello, Tekton!"]⟩]⟩, ())
  Update _ obj := (.ok { obj with ResourceVersion := "2" }, ())
  Delete _ _ _ := (none, ())
  List _ := (.error ⟨StatusReasonServiceUnavailable, 503, "list"⟩, ())

/-! ## The retry library, unfolded -/

section RetryLemmas
variable {ω ε : Type}

theorem OnError_eq_finish (backoff : Backoff) (retriable : ε → Bool)
    (fn : ω → Except Panic (Option ε) × ω) (w : ω) :
    OnError backoff retriable fn w =
      OnError.finish (ExponentialBackoff backoff.Steps (OnError.condition retriable fn) (w, none)) := by
  unfold OnError OnError.finish
  rfl

/-- One turn of the loop inside `OnError`, for a positive step count: the
value of `lastErr` on entry does not matter. -/
theorem finish_backoff_succ (retriable : ε → Bool) (fn : ω → Except Panic (Option ε) × ω)
    (n : Nat) (w : ω) (last : Option ε) :
    OnError.finish (ExponentialBackoff (n + 1) (OnError.condition retriable fn) (w, last)) =
      match fn w with
      | (.error p, w1) => (.error p, w1)
      | (.ok none, w1) => (.ok none, w1)
      | (.ok (some e), w1) =>
        if retriable e then
          (if n = 0 then (.ok (some e), w1)
           else OnError.finish (ExponentialBackoff n (OnError.condition retriable fn) (w1, some e)))
        else (.ok (some e), w1) := by
  rw [ExponentialBackoff]
  unfold OnError.condition
  rcases h : fn w with ⟨r, w1⟩
  rcases r with p | o
  · simp [OnError.finish]
  · rcases o with _ | e
    · simp [OnError.finish]
    · by_cases hr : retriable e = true
      · by_cases hn : n = 0
        · simp [hr, hn, OnError.finish]
        · simp [hr, hn]
      · simp [hr, OnError.finish]

theorem finish_backoff_last (retriable : ε → Bool) (fn : ω → Except Panic (Option ε) × ω)
    (n : Nat) (w : ω) (l1 l2 : Option ε) :
    OnError.finish (ExponentialBackoff (n + 1) (OnError.condition retriable fn) (w, l1)) =
      OnError.finish (ExponentialBackoff (n + 1) (OnError.condition retriable fn) (w, l2)) := by
  rw [finish_backoff_succ, finish_backoff_succ]

theorem OnError_zero (retriable : ε → Bool) (fn : ω → Except Panic (Option ε) × ω) (w : ω) :
    OnError ⟨0⟩ retriable fn w = (.ok none, w) := by
  simp [OnError_eq_finish, ExponentialBackoff, OnError.finish]

theorem OnError_succ (retriable : ε → Bool) (fn : ω → Except Panic (Option ε) × ω)
    (n : Nat) (w : ω) :
    OnError ⟨n + 1⟩ retriable fn w =
      match fn w with
      | (.error p, w1) => (.error p, w1)
      | (.ok none, w1) => (.ok none, w1)
      | (.ok (some e), w1) =>
        if retriable e then
          (if n = 0 then (.ok (some e), w1) else OnError ⟨n⟩ retriable fn w1)
        else (.ok (some e), w1) := by
  rw [OnError_eq_finish]
  simp only []
  rw [finish_backoff_succ]
  rcases h : fn w with ⟨r, w1⟩
  rcases r with p | o
  · rfl
  · rcases o with _ | e
    · rfl
    · simp only []
      by_cases hr : retriable e = true
      · by_cases hn : n = 0
        · simp [hr, hn]
        · obtain ⟨m, rfl⟩ := Nat.exists_eq_succ_of_ne_zero hn
          simp only [hr, if_true, hn, if_false]
          rw [OnError_eq_finish]
          exact finish_backoff_last retriable fn m w1 (some e) none
      · simp [hr]

end RetryLemmas

/-! ## The runs of the update loop and of `main` -/

section Runs
variable {σ : Type}

/-- The calls of one attempt from `w` and what the attempt returns. -/
theorem updateAttempt_cases (c : TaskInterface σ) (w : World σ) :
    (∃ e, (c.Get w.store "sample-task").1 = .error e ∧
      (updateAttempt c w).2.calls = w.calls ++ [.Get "sample-task" (.error e)] ∧
      (updateAttempt c w).1 =
        .error (.errorf "Failed to get the latest version of Task: %v" e)) ∨
    (∃ t, (c.Get w.store "sample-task").1 = .ok t ∧ t.Steps = [] ∧
      (updateAttempt c w).2.calls = w.calls ++ [.Get "sample-task" (.ok t)] ∧
      (updateAttempt c w).1 = .error (.indexOutOfRange 0 0)) ∨
    (∃ t st sts s2 u, (c.Get w.store "sample-task").1 = .ok t ∧ t.Steps = st :: sts ∧
      (c.Update s2 (candidate t st sts)).1 = .ok u ∧
      (updateAttempt c w).2.calls = w.calls ++
        [.Get "sample-task" (.ok t), .Update (candidate t st sts) (.ok u)] ∧
      (updateAttempt c w).1 = .ok none) ∨
    (∃ t st sts s2 e, (c.Get w.store "sample-task").1 = .ok t ∧ t.Steps = st :: sts ∧
      (c.Update s2 (candidate t st sts)).1 = .error e ∧
      (updateAttempt c w).2.calls = w.calls ++
        [.Get "sample-task" (.ok t), .Update (candidate t st sts) (.error e)] ∧
      (updateAttempt c w).1 = .ok (some e)) := by
  unfold updateAttempt
  rcases hg : c.Get w.store "sample-task" with ⟨r, s1⟩
  rcases r with e | t
  · exact Or.inl ⟨e, rfl, rfl, rfl⟩
  · rcases t with ⟨nm, rv, steps⟩
    rcases steps with _ | ⟨st, sts⟩
    · exact Or.inr (Or.inl ⟨_, rfl, rfl, rfl, rfl⟩)
    · simp only []
      rcases hu : c.Update (((w.record (.Get "sample-task" (.ok ⟨nm, rv, st :: sts⟩)) s1).print
          ⟨"Before Update - Image: %s, Command: %v\n", [.str st.Image, .strs st.Command]⟩).print
          ⟨"After Update - Image: %s, Command: %v\n",
            [.str "busybox", .strs ["echo", "Updated Hello Tekton"]]⟩).store
          ⟨nm, rv, ⟨st.Name, "busybox", ["echo", "Updated Hello Tekton"]⟩ :: sts⟩ with ⟨r2, s2⟩
      rcases r2 with e2 | u
      · refine Or.inr (Or.inr (Or.inr ⟨⟨nm, rv, st :: sts⟩, st, sts, s1, e2, rfl, rfl, ?_, ?_, rfl⟩))
        · rw [candidate]; exact congrArg Prod.fst hu
        · simp [World.record, World.print, candidate]
      · refine Or.inr (Or.inr (Or.inl ⟨⟨nm, rv, st :: sts⟩, st, sts, s1, u, rfl, rfl, ?_, ?_, rfl⟩))
        · rw [candidate]; exact congrArg Prod.fst hu
        · simp [World.record, World.print, candidate]

theorem RetryOnConflict_run (c : TaskInterface σ) (n : Nat) (w : World σ) :
    ∃ tr, (RetryOnConflict ⟨n⟩ (updateAttempt c) w).2.calls = w.calls ++ tr ∧
      RetryRun c n tr (RetryOnConflict ⟨n⟩ (updateAttempt c) w).1 := by
  unfold RetryOnConflict
  induction n generalizing w with
  | zero => exact ⟨[], by simp [OnError_zero], by rw [OnError_zero]; exact .noStep⟩
  | succ n ih =>
    rw [OnError_succ]
    rcases updateAttempt_cases c w with ⟨e, hg, htr, hr⟩ | ⟨t, hg, hs, htr, hr⟩ |
      ⟨t, st, sts, s2, u, hg, hs, hu, htr, hr⟩ | ⟨t, st, sts, s2, e, hg, hs, hu, htr, hr⟩
    · rcases ha : updateAttempt c w with ⟨r, w1⟩
      rw [ha] at htr hr
      simp only [] at htr hr
      subst hr
      exact ⟨_, htr, .getFailed n _ e hg⟩
    · rcases ha : updateAttempt c w with ⟨r, w1⟩
      rw [ha] at htr hr
      simp only [] at htr hr
      subst hr
      exact ⟨_, htr, .noSteps n _ t hg hs⟩
    · rcases ha : updateAttempt c w with ⟨r, w1⟩
      rw [ha] at htr hr
      simp only [] at htr hr
      subst hr
      exact ⟨_, htr, .updated n _ s2 t st sts u hg hs hu⟩
    · rcases ha : updateAttempt c w with ⟨r, w1⟩
      rw [ha] at htr hr
      simp only [] at htr hr
      subst hr
      simp only []
      cases hc : IsConflict e
      · simp only [Bool.false_eq_true, if_false]
        exact ⟨_, htr, .failed n _ s2 t st sts e hg hs hu hc⟩
      · simp only [if_true]
        by_cases hn : n = 0
        · subst hn
          simp only [if_true]
          exact ⟨_, htr, .exhausted _ s2 t st sts e hg hs hu hc⟩
        · obtain ⟨m, rfl⟩ := Nat.exists_eq_succ_of_ne_zero hn
          simp only [hn, if_false]
          obtain ⟨rest, hrest, hrun2⟩ := ih w1
          refine ⟨_, ?_, .retried m _ s2 t st sts e rest _ hg hs hu hc hrun2⟩
          rw [hrest, htr, List.append_assoc]
          rfl


theorem RetryRun.head {c : TaskInterface σ} {n : Nat} {tr : List Call}
    {r : Except Panic (Option StatusError)} (h : RetryRun c (n + 1) tr r) :
    ∃ rr rest, tr = .Get "sample-task" rr :: rest := by
  cases h <;> exact ⟨_, _, rfl⟩

theorem RetryRun.kinds {c : TaskInterface σ} {n : Nat} {tr : List Call}
    {r : Except Panic (Option StatusError)} (h : RetryRun c n tr r) :
    ∀ x ∈ tr, x.isGet = true ∨ x.isUpdate = true := by
  induction h with
  | retried n s s2 t st sts e rest r hget hsteps hupd hc hrest ih =>
    intro x hx
    simp only [List.mem_cons] at hx
    rcases hx with rfl | rfl | hx
    · simp [Call.isGet]
    · simp [Call.isUpdate]
    · exact ih x hx
  | _ => simp [Call.isGet, Call.isUpdate]

theorem RetryRun.count {c : TaskInterface σ} {n : Nat} {tr : List Call}
    {r : Except Panic (Option StatusError)} (h : RetryRun c n tr r) :
    tr.countP Call.isGet ≤ n ∧ tr.countP Call.isUpdate ≤ n := by
  induction h with
  | retried n s s2 t st sts e rest r hget hsteps hupd hc hrest ih =>
    simp [List.countP_cons, Call.isGet, Call.isUpdate] at ih ⊢
    omega
  | _ => simp [List.countP_cons, Call.isGet, Call.isUpdate]

theorem RetryRun.writes {c : TaskInterface σ} {n : Nat} {tr : List Call}
    {r : Except Panic (Option StatusError)} (h : RetryRun c n tr r) :
    ∀ pre obj res post, tr = pre ++ .Update obj res :: post →
      ∃ pre0 t st sts, pre = pre0 ++ [.Get "sample-task" (.ok t)] ∧ t.Steps = st :: sts ∧
        obj = candidate t st sts ∧ (∃ s, (c.Get s "sample-task").1 = .ok t) ∧
        (∃ s, (c.Update s obj).1 = res) ∧
        (∀ y, pre0.getLast? = some y → ∃ o a, y = .Update o a) := by
  induction h with
  | noStep => intro pre obj res post h; simp at h
  | getFailed n s e hget =>
    intro pre obj res post h
    rcases pre with _ | ⟨p, pre⟩ <;> simp at h
  | noSteps n s t hget hsteps =>
    intro pre obj res post h
    rcases pre with _ | ⟨p, pre⟩ <;> simp at h
  | updated n s s2 t st sts u hget hsteps hupd =>
    intro pre obj res post h
    rcases pre with _ | ⟨p, _ | ⟨q, pre⟩⟩ <;> simp at h
    obtain ⟨rfl, ⟨rfl, rfl⟩, rfl⟩ := h
    exact ⟨[], t, st, sts, rfl, hsteps, rfl, ⟨s, hget⟩, ⟨s2, hupd⟩, by simp⟩
  | failed n s s2 t st sts e hget hsteps hupd hc =>
    intro pre obj res post h
    rcases pre with _ | ⟨p, _ | ⟨q, pre⟩⟩ <;> simp at h
    obtain ⟨rfl, ⟨rfl, rfl⟩, rfl⟩ := h
    exact ⟨[], t, st, sts, rfl, hsteps, rfl, ⟨s, hget⟩, ⟨s2, hupd⟩, by simp⟩
  | exhausted s s2 t st sts e hget hsteps hupd hc =>
    intro pre obj res post h
    rcases pre with _ | ⟨p, _ | ⟨q, pre⟩⟩ <;> simp at h
    obtain ⟨rfl, ⟨rfl, rfl⟩, rfl⟩ := h
    exact ⟨[], t, st, sts, rfl, hsteps, rfl, ⟨s, hget⟩, ⟨s2, hupd⟩, by simp⟩
  | retried n s s2 t st sts e rest r hget hsteps hupd hc hrest ih =>
    intro pre obj res post h
    rcases pre with _ | ⟨p, _ | ⟨q, pre⟩⟩
    · simp at h
    · simp at h
      obtain ⟨rfl, ⟨rfl, rfl⟩, rfl⟩ := h
      exact ⟨[], t, st, sts, rfl, hsteps, rfl, ⟨s, hget⟩, ⟨s2, hupd⟩, by simp⟩
    · simp only [List.cons_append, List.cons.injEq] at h
      obtain ⟨rfl, rfl, h⟩ := h
      obtain ⟨pre0, t1, st1, sts1, rfl, hs1, hobj, hg1, hu1, hlast⟩ := ih pre obj res post h
      refine ⟨_ :: _ :: pre0, t1, st1, sts1, rfl, hs1, hobj, hg1, hu1, ?_⟩
      intro y hy
      rcases pre0 with _ | ⟨a, pre0⟩
      · simp at hy
        exact ⟨_, _, hy.symm⟩
      · apply hlast
        simpa [List.getLast?_cons_cons] using hy


theorem RetryRun.follows {c : TaskInterface σ} {n : Nat} {tr : List Call}
    {r : Except Panic (Option StatusError)} (h : RetryRun c n tr r) :
    ∀ pre x post, tr = pre ++ x :: post → Follows n r pre x post := by
  induction h with
  | noStep => intro pre x post h; simp at h
  | getFailed n s e hget =>
    intro pre x post h
    rcases pre with _ | ⟨p, pre⟩ <;> simp at h
    obtain ⟨rfl, rfl⟩ := h
    simp [Follows]
  | noSteps n s t hget hsteps =>
    intro pre x post h
    rcases pre with _ | ⟨p, pre⟩ <;> simp at h
    obtain ⟨rfl, rfl⟩ := h
    simp [Follows, hsteps]
  | updated n s s2 t st sts u hget hsteps hupd =>
    intro pre x post h
    rcases pre with _ | ⟨p, _ | ⟨q, pre⟩⟩ <;> simp at h
    · obtain ⟨rfl, rfl⟩ := h
      exact Or.inr ⟨st, sts, _, _, hsteps, rfl⟩
    · obtain ⟨rfl, rfl, rfl⟩ := h
      simp [Follows]
  | failed n s s2 t st sts e hget hsteps hupd hc =>
    intro pre x post h
    rcases pre with _ | ⟨p, _ | ⟨q, pre⟩⟩ <;> simp at h
    · obtain ⟨rfl, rfl⟩ := h
      exact Or.inr ⟨st, sts, _, _, hsteps, rfl⟩
    · obtain ⟨rfl, rfl, rfl⟩ := h
      simp [Follows, hc]
  | exhausted s s2 t st sts e hget hsteps hupd hc =>
    intro pre x post h
    rcases pre with _ | ⟨p, _ | ⟨q, pre⟩⟩ <;> simp at h
    · obtain ⟨rfl, rfl⟩ := h
      exact Or.inr ⟨st, sts, _, _, hsteps, rfl⟩
    · obtain ⟨rfl, rfl, rfl⟩ := h
      simp [Follows, hc, Call.isGet, Call.isUpdate, List.countP_cons]
  | retried n s s2 t st sts e rest r hget hsteps hupd hc hrest ih =>
    intro pre x post h
    rcases pre with _ | ⟨p, _ | ⟨q, pre⟩⟩
    · simp at h
      obtain ⟨rfl, rfl⟩ := h
      exact Or.inr ⟨st, sts, _, _, hsteps, rfl⟩
    · simp at h
      obtain ⟨rfl, rfl, rfl⟩ := h
      obtain ⟨rr, rest1, rfl⟩ := hrest.head
      simp [Follows, hc, Call.isGet, Call.isUpdate, List.countP_cons]
    · simp only [List.cons_append, List.cons.injEq] at h
      obtain ⟨rfl, rfl, h⟩ := h
      have := ih pre x post h
      rcases x with ⟨o, a⟩ | ⟨nm, a⟩ | ⟨o, a⟩ | a | ⟨nm, o, a⟩
      · simp [Follows] at this
      · rcases a with e1 | t1 <;> simpa [Follows] using this
      · rcases a with e1 | t1
        · simp only [Follows, List.cons_append, List.countP_cons, Call.isGet, Call.isUpdate]
            at this ⊢
          rcases this with ⟨h1, h2, h3⟩ | ⟨h1, h2, h3⟩
          · left
            refine ⟨h1, h2, fun hh => ?_⟩
            have := h3 hh
            simp at this ⊢
            omega
          · right
            refine ⟨h1, ?_, h3⟩
            simp at h2 ⊢
            omega
        · simpa [Follows] using this
      · simp [Follows] at this
      · simp [Follows] at this

theorem RetryRun.success {c : TaskInterface σ} {n : Nat} {tr : List Call}
    (h : RetryRun c n tr (.ok none)) :
    (n = 0 ∧ tr = []) ∨ ∃ attempts obj u, tr = attempts ++ [.Update obj (.ok u)] := by
  generalize hr : (Except.ok none : Except Panic (Option StatusError)) = r at h
  induction h with
  | noStep => exact Or.inl ⟨rfl, rfl⟩
  | updated n s s2 t st sts u hget hsteps hupd => exact Or.inr ⟨[_], _, u, rfl⟩
  | retried n s s2 t st sts e rest r hget hsteps hupd hc hrest ih =>
    rcases ih hr with ⟨h0, -⟩ | ⟨attempts, obj, u, rfl⟩
    · omega
    · exact Or.inr ⟨_ :: _ :: attempts, obj, u, rfl⟩
  | _ => simp at hr

/-- A conflict error comes out of the loop only from the write of the last
permitted attempt, all writes before it having met a conflict too. -/
theorem RetryRun.conflict {c : TaskInterface σ} {n : Nat} {tr : List Call}
    {r : Except Panic (Option StatusError)} (h : RetryRun c n tr r) :
    ∀ e, r = .ok (some e) → IsConflict e = true →
      tr.countP Call.isUpdate = n ∧ (∃ pre obj, tr = pre ++ [.Update obj (.error e)]) ∧
      ∀ obj res, .Update obj res ∈ tr → ∃ e2, res = .error e2 ∧ IsConflict e2 = true := by
  induction h with
  | failed n s s2 t st sts e hget hsteps hupd hc =>
    intro e1 h1 h2
    simp at h1
    subst h1
    simp [hc] at h2
  | exhausted s s2 t st sts e hget hsteps hupd hc =>
    intro e1 h1 h2
    simp at h1
    subst h1
    refine ⟨by simp [List.countP_cons, Call.isUpdate], ⟨[_], _, rfl⟩, ?_⟩
    intro obj res hm
    simp at hm
    exact ⟨e, hm.2, hc⟩
  | retried n s s2 t st sts e rest r hget hsteps hupd hc hrest ih =>
    intro e1 h1 h2
    obtain ⟨hcount, ⟨pre, obj, rfl⟩, hall⟩ := ih e1 h1 h2
    refine ⟨?_, ⟨_ :: _ :: pre, obj, rfl⟩, ?_⟩
    · simp [List.countP_cons, Call.isUpdate] at hcount ⊢
      omega
    · intro o res hm
      simp only [List.mem_cons] at hm
      rcases hm with hm | hm | hm
      · simp at hm
      · simp at hm
        exact ⟨e, hm.2, hc⟩
      · exact hall o res hm
  | _ => intro e1 h1; simp at h1


theorem prompt_calls (w : World σ) : (prompt w).2.calls = w.calls := by
  unfold prompt
  cases w.scanErr w.prompts <;> rfl

theorem prompt_result (w : World σ) :
    (prompt w).1 = .ok () ∨ ∃ msg, (prompt w).1 = .error (.scanner msg) := by
  unfold prompt
  cases w.scanErr w.prompts
  · exact Or.inl rfl
  · exact Or.inr ⟨_, rfl⟩

theorem foldl_print_calls (l : List Task) (w : World σ) :
    (l.foldl (fun acc t => acc.print ⟨" * %s\n", [.str t.Name]⟩) w).calls = w.calls := by
  induction l generalizing w with
  | nil => rfl
  | cons t l ih => rw [List.foldl_cons, ih]; rfl

theorem main_run (c : TaskInterface σ) (w : World σ) :
    ∃ tr, (main c w).2.calls = w.calls ++ tr ∧ MainRun c tr (main c w).1 := by
  unfold main
  simp only []
  rcases hc : c.Create (w.print (Println "Creating Task...")).store task with ⟨r, s1⟩
  rcases r with e | ⟨nm, rv, steps⟩
  · exact ⟨_, rfl, .createFailed e⟩
  · rcases steps with _ | ⟨step0, steps⟩
    · exact ⟨_, rfl, .createdNoSteps _ rfl⟩
    · simp only []
      generalize hw3 : (((w.print (Println "Creating Task...")).record
        (.Create task (.ok ⟨nm, rv, step0 :: steps⟩)) s1).print
          ⟨"Created Task %q.\n", [.str nm]⟩).print
          ⟨"Created Task %q. Image: %s, Message: %s\n",
            [.str nm, .str step0.Image, .strs step0.Command]⟩ = w3
      have hc3 : w3.calls = w.calls ++ [.Create task (.ok ⟨nm, rv, step0 :: steps⟩)] := by
        rw [← hw3]; rfl
      have hp1 := prompt_calls w3
      have hr1 := prompt_result w3
      rcases hpr1 : prompt w3 with ⟨r, w4⟩
      rw [hpr1] at hp1 hr1
      simp only [] at hp1 hr1
      rcases hr1 with rfl | ⟨msg, rfl⟩
      swap
      · exact ⟨_, by rw [hp1, hc3], .scanFailed1 _ msg⟩
      · simp only []
        obtain ⟨utr, hutr, hrun⟩ := RetryOnConflict_run c 5 (w4.print (Println "Updating Task..."))
        change RetryRun c 5 utr
          (RetryOnConflict DefaultRetry (updateAttempt c) (w4.print (Println "Updating Task..."))).1
          at hrun
        change (RetryOnConflict DefaultRetry (updateAttempt c)
          (w4.print (Println "Updating Task..."))).2.calls = _ at hutr
        rcases hret : RetryOnConflict DefaultRetry (updateAttempt c)
          (w4.print (Println "Updating Task...")) with ⟨r, w6⟩
        rw [hret] at hutr hrun
        simp only [] at hutr hrun
        have hc6 : w6.calls = w.calls ++ (.Create task (.ok ⟨nm, rv, step0 :: steps⟩) :: utr) := by
          rw [hutr]
          show w4.calls ++ utr = _
          rw [hp1, hc3]
          simp
        rcases r with p | _ | e
        · exact ⟨_, hc6, .updatePanicked _ utr p hrun⟩
        · simp only []
          generalize hw8 : ((w6.print (Println "Updated Task...")).print
            ⟨"Updated Task %q. Image: %s, Message: %s\n",
              [.str nm, .str step0.Image, .strs step0.Command]⟩) = w8
          have hc8 : w8.calls = w6.calls := by rw [← hw8]; rfl
          have hp2 := prompt_calls w8
          have hr2 := prompt_result w8
          rcases hpr2 : prompt w8 with ⟨r, w9⟩
          rw [hpr2] at hp2 hr2
          simp only [] at hp2 hr2
          rcases hr2 with rfl | ⟨msg, rfl⟩
          swap
          · exact ⟨_, by rw [hp2, hc8, hc6], .scanFailed2 _ utr msg hrun⟩
          · simp only []
            rcases hl : c.List (w9.print
              ⟨"Listing Tasks in namespace %q:\n", [.str "default"]⟩).store with ⟨r, s2⟩
            rcases r with e | l
            · refine ⟨_, ?_, .listFailed ⟨nm, rv, step0 :: steps⟩ utr e hrun⟩
              simp only [World.record, World.print]
              rw [hp2, hc8, hc6]
              simp
            · simp only []
              generalize hw12 : (l.foldl (fun acc t => acc.print ⟨" * %s\n", [.str t.Name]⟩)
                ((w9.print ⟨"Listing Tasks in namespace %q:\n", [.str "default"]⟩).record
                  (.List (.ok l)) s2)) = w12
              have hc12 : w12.calls = w.calls ++ (.Create task (.ok ⟨nm, rv, step0 :: steps⟩) ::
                  (utr ++ [.List (.ok l)])) := by
                rw [← hw12, foldl_print_calls]
                simp only [World.record, World.print]
                rw [hp2, hc8, hc6]
                simp
              have hp3 := prompt_calls w12
              have hr3 := prompt_result w12
              rcases hpr3 : prompt w12 with ⟨r, w13⟩
              rw [hpr3] at hp3 hr3
              simp only [] at hp3 hr3
              rcases hr3 with rfl | ⟨msg, rfl⟩
              swap
              · exact ⟨_, by rw [hp3, hc12], .scanFailed3 _ utr l msg hrun⟩
              · simp only []
                rcases hd : c.Delete (w13.print (Println "Deleting Task...")).store "sample-task"
                  ⟨some DeletionPropagation.Foreground⟩ with ⟨r, s3⟩
                rcases r with _ | e
                · refine ⟨_, ?_, .completed ⟨nm, rv, step0 :: steps⟩ utr l hrun⟩
                  simp only [World.record, World.print]
                  rw [hp3, hc12]
                  simp [foreground]
                · refine ⟨_, ?_, .deleteFailed ⟨nm, rv, step0 :: steps⟩ utr l e hrun⟩
                  simp only [World.record, World.print]
                  rw [hp3, hc12]
                  simp [foreground]
        · exact ⟨_, hc6, .updateFailed _ utr e hrun⟩

end Runs

/-! ## The update loop of `main` -/

theorem newCalls_eq {σ : Type} {w w1 : World σ} {tr : List Call}
    (h : w1.calls = w.calls ++ tr) : newCalls w w1 = tr := by
  unfold newCalls
  rw [h]
  simp

/-- The update loop of `main` is a run of the retry loop with five steps. -/
theorem updateLoop_run {σ : Type} (c : TaskInterface σ) (w : World σ) :
    RetryRun c 5 (newCalls w (RetryOnConflict DefaultRetry (updateAttempt c) w).2)
      (RetryOnConflict DefaultRetry (updateAttempt c) w).1 := by
  obtain ⟨tr, htr, hrun⟩ := RetryOnConflict_run c 5 w
  have h : newCalls w (RetryOnConflict DefaultRetry (updateAttempt c) w).2 = tr :=
    newCalls_eq htr
  rw [h]
  exact hrun

/-- C1: in the update loop of main, whatever the store answers, every Update
call is the second call of its attempt: the call right before it is a Get of
"sample-task" that the store answered with an object `t`, what precedes that Get
(if anything) is the write of the attempt before, and the object written is `t`
with the same name and the same version token, its first step set to image
"busybox" and the new command, the later steps kept. -/
theorem update_writes_what_it_just_read {σ : Type} (c : TaskInterface σ) (w : World σ)
    (pre post : List Call) (obj : Task) (res : Except StatusError Task)
    (h : newCalls w (RetryOnConflict DefaultRetry (updateAttempt c) w).2 =
      pre ++ Call.Update obj res :: post) :
    ∃ pre0 t st sts,
      pre = pre0 ++ [Call.Get "sample-task" (.ok t)] ∧
      (∃ s, (c.Get s "sample-task").1 = .ok t) ∧
      (∃ s, (c.Update s obj).1 = res) ∧
      (∀ y, pre0.getLast? = some y → ∃ o a, y = Call.Update o a) ∧
      t.Steps = st :: sts ∧
      obj.Name = t.Name ∧
      obj.ResourceVersion = t.ResourceVersion ∧
      obj.Steps =
        { Name := st.Name, Image := "busybox", Command := ["echo", "Updated Hello Tekton"] }
          :: sts := by
  obtain ⟨pre0, t, st, sts, hpre, hsteps, hobj, hg, hu, hlast⟩ :=
    (updateLoop_run c w).writes pre obj res post h
  subst hobj
  exact ⟨pre0, t, st, sts, hpre, hg, hu, hlast, hsteps, rfl, rfl, rfl⟩

/-- The run of C1 on the client whose writes always meet a conflict: the second
call of the loop is a write of what the first call read. -/
theorem update_writes_what_it_just_read_witness :
    newCalls (quiet ()) (RetryOnConflict DefaultRetry (updateAttempt contended) (quiet ())).2 =
      [Call.Get "sample-task"
        (.ok ⟨"sample-task", "1", [⟨"step1", "ubuntu", ["echo", "Hello, Tekton!"]⟩]⟩)] ++
      Call.Update ⟨"sample-task", "1", [⟨"step1", "busybox", ["echo", "Updated Hello Tekton"]⟩]⟩
        (.error ⟨StatusReasonConflict, 409, "sample-task"⟩) ::
      (newCalls (quiet ())
        (RetryOnConflict DefaultRetry (updateAttempt contended) (quiet ())).2).drop 2 ∧
    ∃ pre0 t st sts,
      [Call.Get "sample-task"
        (.ok ⟨"sample-task", "1", [⟨"step1", "ubuntu", ["echo", "Hello, Tekton!"]⟩]⟩)] =
        pre0 ++ [Call.Get "sample-task" (.ok t)] ∧
      (∃ s, (contended.Get s "sample-task").1 = .ok t) ∧
      (∃ s, (contended.Update s
        ⟨"sample-task", "1", [⟨"step1", "busybox", ["echo", "Updated Hello Tekton"]⟩]⟩).1 =
          .error ⟨StatusReasonConflict, 409, "sample-task"⟩) ∧
      (∀ y, pre0.getLast? = some y → ∃ o a, y = Call.Update o a) ∧
      t.Steps = st :: sts ∧
      (⟨"sample-task", "1", [⟨"step1", "busybox", ["echo", "Updated Hello Tekton"]⟩]⟩ : Task).Name
        = t.Name ∧
      (⟨"sample-task", "1", [⟨"step1", "busybox", ["echo", "Updated Hello Tekton"]⟩]⟩ :
        Task).ResourceVersion = t.ResourceVersion ∧
      (⟨"sample-task", "1", [⟨"step1", "busybox", ["echo", "Updated Hello Tekton"]⟩]⟩ :
        Task).Steps =
        { Name := st.Name, Image := "busybox", Command := ["echo", "Updated Hello Tekton"] }
          :: sts :=
  ⟨by rfl, update_writes_what_it_just_read contended (quiet ()) _ _ _ _ (by rfl)⟩

/-- C2: in the update loop of main, whatever the store answers: (1) a new attempt
(a Get) follows a call only if that call is a write answered with Conflict and
fewer attempts than the step count of `DefaultRetry` have been made; (2) a write
answered with Conflict while fewer attempts than the step count have been made is
followed by a new attempt; (3) a Get answered with an error is the last call and
the loop panics with that error; (4) a write answered with an error other than
Conflict is the last call and the loop returns that error. -/
theorem retry_only_on_conflict_within_budget {σ : Type} (c : TaskInterface σ) (w : World σ)
    (pre post : List Call) (x : Call)
    (h : newCalls w (RetryOnConflict DefaultRetry (updateAttempt c) w).2 = pre ++ x :: post) :
    (∀ y rest, post = y :: rest → y.isGet = true →
      ∃ obj e, x = Call.Update obj (.error e) ∧ IsConflict e = true ∧
        (pre ++ [x]).countP Call.isGet < DefaultRetry.Steps) ∧
    (∀ obj e, x = Call.Update obj (.error e) → IsConflict e = true →
      (pre ++ [x]).countP Call.isGet < DefaultRetry.Steps →
      ∃ a rest, post = Call.Get "sample-task" a :: rest) ∧
    (∀ nm e, x = Call.Get nm (.error e) →
      post = [] ∧ (RetryOnConflict DefaultRetry (updateAttempt c) w).1 =
        .error (.errorf "Failed to get the latest version of Task: %v" e)) ∧
    (∀ obj e, x = Call.Update obj (.error e) → IsConflict e = false →
      post = [] ∧ (RetryOnConflict DefaultRetry (updateAttempt c) w).1 = .ok (some e)) := by
  have hf := (updateLoop_run c w).follows pre x post h
  refine ⟨?_, ?_, ?_, ?_⟩
  · intro y rest hpost hy
    subst hpost
    rcases x with ⟨o, a⟩ | ⟨nm, a⟩ | ⟨o, a⟩ | a | ⟨nm, o, a⟩
    · simp [Follows] at hf
    · rcases a with e | t
      · simp [Follows] at hf
      · simp only [Follows] at hf
        rcases hf with ⟨-, hnil, -⟩ | ⟨st, sts, res, rest1, -, hpost⟩
        · simp at hnil
        · simp only [List.cons.injEq] at hpost
          rw [hpost.1] at hy
          simp [Call.isGet] at hy
    · rcases a with e | u
      · simp only [Follows] at hf
        rcases hf with ⟨hnil, -⟩ | ⟨hc, hcount, -⟩
        · simp at hnil
        · exact ⟨o, e, rfl, hc, hcount⟩
      · simp [Follows] at hf
    · simp [Follows] at hf
    · simp [Follows] at hf
  · intro obj e hx hc hcount
    subst hx
    simp only [Follows] at hf
    rcases hf with ⟨-, -, hfull⟩ | ⟨-, -, hnext⟩
    · have := hfull hc
      simp only [DefaultRetry] at hcount
      omega
    · exact hnext
  · intro nm e hx
    subst hx
    simpa [Follows] using hf
  · intro obj e hx hc
    subst hx
    simp only [Follows] at hf
    rcases hf with ⟨hnil, hr, -⟩ | ⟨hc2, -⟩
    · exact ⟨hnil, hr⟩
    · rw [hc] at hc2
      simp at hc2

/-- The run of C2 on the client whose writes are answered with code 409 and no
reason: `errors.IsConflict` accepts the error, and the first write is followed
by a second attempt. -/
theorem retry_only_on_conflict_within_budget_witness :
    IsConflict ⟨StatusReasonUnknown, 409, "sample-task"⟩ = true ∧
    ∃ a rest,
      (newCalls (quiet ())
        (RetryOnConflict DefaultRetry (updateAttempt unlabelled) (quiet ())).2).drop 2 =
        Call.Get "sample-task" a :: rest :=
  ⟨by decide,
    (retry_only_on_conflict_within_budget unlabelled (quiet ())
      [Call.Get "sample-task"
        (.ok ⟨"sample-task", "1", [⟨"step1", "ubuntu", ["echo", "Hello, Tekton!"]⟩]⟩)]
      _
      (Call.Update
        ⟨"sample-task", "1", [⟨"step1", "busybox", ["echo", "Updated Hello Tekton"]⟩]⟩
        (.error ⟨StatusReasonUnknown, 409, "sample-task"⟩))
      (by rfl)).2.1 _ _ rfl (by decide) (by decide)⟩

/-- A successful loop of at least one step ends with a write the store accepted. -/
theorem RetryRun.accepted {σ : Type} {c : TaskInterface σ} {n : Nat} {tr : List Call}
    (h : RetryRun c (n + 1) tr (.ok none)) : ∃ s obj u, (c.Update s obj).1 = .ok u := by
  rcases h.success with ⟨h0, -⟩ | ⟨attempts, obj, u, htr⟩
  · omega
  · obtain ⟨-, -, -, -, -, -, -, -, ⟨s, hs⟩, -⟩ := h.writes attempts obj (.ok u) [] htr
    exact ⟨s, obj, u, hs⟩

/-- C3: against a store whose conditional write answers Conflict every time, the
update loop of main (a total function: it always returns) makes at most 5 Get
calls and at most 5 Update calls, 5 being the step count of `DefaultRetry`,
makes no other call, and does not end in success: it returns an error or
panics. -/
theorem retry_bound_under_persistent_conflict {σ : Type} (c : TaskInterface σ) (w : World σ)
    (hconf : ∀ s obj, ∃ e, (c.Update s obj).1 = .error e ∧ IsConflict e = true) :
    DefaultRetry.Steps = 5 ∧
    (newCalls w (RetryOnConflict DefaultRetry (updateAttempt c) w).2).countP Call.isGet ≤ 5 ∧
    (newCalls w (RetryOnConflict DefaultRetry (updateAttempt c) w).2).countP Call.isUpdate ≤ 5 ∧
    (∀ x ∈ newCalls w (RetryOnConflict DefaultRetry (updateAttempt c) w).2,
      x.isGet = true ∨ x.isUpdate = true) ∧
    (RetryOnConflict DefaultRetry (updateAttempt c) w).1 ≠ .ok none := by
  have hrun := updateLoop_run c w
  refine ⟨rfl, hrun.count.1, hrun.count.2, hrun.kinds, ?_⟩
  intro hok
  rw [hok] at hrun
  obtain ⟨s, obj, u, hs⟩ := hrun.accepted
  obtain ⟨e, he, -⟩ := hconf s obj
  rw [hs] at he
  simp at he

/-- The run of C3 on the client whose writes always meet a conflict. -/
theorem retry_bound_under_persistent_conflict_witness :
    (∀ s obj, ∃ e, (contended.Update s obj).1 = .error e ∧ IsConflict e = true) ∧
    (newCalls (quiet ())
      (RetryOnConflict DefaultRetry (updateAttempt contended) (quiet ())).2).countP
        Call.isUpdate ≤ 5 ∧
    (RetryOnConflict DefaultRetry (updateAttempt contended) (quiet ())).1 ≠ .ok none :=
  ⟨fun _ obj => ⟨⟨StatusReasonConflict, 409, obj.Name⟩, rfl, rfl⟩,
    (retry_bound_under_persistent_conflict contended (quiet ())
      (fun _ obj => ⟨⟨StatusReasonConflict, 409, obj.Name⟩, rfl, rfl⟩)).2.2.1,
    (retry_bound_under_persistent_conflict contended (quiet ())
      (fun _ obj => ⟨⟨StatusReasonConflict, 409, obj.Name⟩, rfl, rfl⟩)).2.2.2.2⟩

/-- C4, as stated, fails: against the client whose writes always meet a conflict
the update loop returns the Conflict error of the store itself, and `main`
panics with `fmt.Errorf("Update failed: %v", retryErr)` built from it. -/
theorem conflict_escapes_the_update_loop :
    (RetryOnConflict DefaultRetry (updateAttempt contended) (quiet ())).1 =
      .ok (some ⟨StatusReasonConflict, 409, "sample-task"⟩) ∧
    IsConflict ⟨StatusReasonConflict, 409, "sample-task"⟩ = true ∧
    (contended.Update () ⟨"sample-task", "1",
      [⟨"step1", "busybox", ["echo", "Updated Hello Tekton"]⟩]⟩).1 =
      .error ⟨StatusReasonConflict, 409, "sample-task"⟩ ∧
    (main contended (quiet ())).1 =
      .error (.errorf "Update failed: %v" ⟨StatusReasonConflict, 409, "sample-task"⟩) := by
  exact ⟨rfl, rfl, rfl, rfl⟩

/-! ## The whole of `main` -/

theorem cons_append_split {α : Type} {c0 x : α} {utr tail pre post : List α}
    (h : c0 :: (utr ++ tail) = pre ++ x :: post) :
    (pre = [] ∧ x = c0 ∧ post = utr ++ tail) ∨
    (∃ pre1 post1, pre = c0 :: pre1 ∧ utr = pre1 ++ x :: post1 ∧ post = post1 ++ tail) ∨
    (∃ pre2, pre = c0 :: (utr ++ pre2) ∧ tail = pre2 ++ x :: post) := by
  rcases pre with _ | ⟨p, pre⟩
  · simp only [List.nil_append, List.cons.injEq] at h
    exact Or.inl ⟨rfl, h.1.symm, h.2.symm⟩
  · simp only [List.cons_append, List.cons.injEq] at h
    obtain ⟨rfl, h⟩ := h
    rcases List.append_eq_append_iff.1 h with ⟨a, h1, h2⟩ | ⟨b, h1, h2⟩
    · exact Or.inr (Or.inr ⟨a, by rw [h1], h2⟩)
    · rcases b with _ | ⟨y, b⟩
      · simp only [List.nil_append, List.append_nil] at h1 h2
        exact Or.inr (Or.inr ⟨[], by simp [h1], h2.symm⟩)
      · simp only [List.cons_append, List.cons.injEq] at h2
        obtain ⟨rfl, h2⟩ := h2
        exact Or.inr (Or.inl ⟨pre, b, rfl, h1, h2⟩)

/-- What the update loop contributes to a run of `main`. -/
theorem RetryRun.part {σ : Type} {c : TaskInterface σ} {n : Nat} {utr : List Call}
    {rr : Except Panic (Option StatusError)} (hrun : RetryRun c n utr rr)
    {pre1 post1 : List Call} {x : Call} (h : utr = pre1 ++ x :: post1) :
    (x.isGet = true ∨ x.isUpdate = true) ∧
    (∀ nm e, x = Call.Get nm (.error e) → post1 = [] ∧
      rr = .error (.errorf "Failed to get the latest version of Task: %v" e)) ∧
    (∀ obj e, x = Call.Update obj (.error e) →
      (post1 = [] ∧ rr = .ok (some e)) ∨
      (IsConflict e = true ∧ ∃ a rest, post1 = Call.Get "sample-task" a :: rest)) := by
  have hf := hrun.follows pre1 x post1 h
  refine ⟨hrun.kinds x (by rw [h]; simp), ?_, ?_⟩
  · intro nm e hx
    subst hx
    simpa [Follows] using hf
  · intro obj e hx
    subst hx
    simp only [Follows] at hf
    rcases hf with ⟨h1, h2, -⟩ | ⟨h1, -, h3⟩
    · exact Or.inl ⟨h1, h2⟩
    · exact Or.inr ⟨h1, h3⟩

/-- A loop that made as many writes as it has steps ends with a write, and
returns what that write was answered. -/
theorem RetryRun.full {σ : Type} {c : TaskInterface σ} {n : Nat} {tr : List Call}
    {r : Except Panic (Option StatusError)} (h : RetryRun c n tr r) :
    0 < n → tr.countP Call.isUpdate = n →
      (∃ pre obj u, tr = pre ++ [Call.Update obj (.ok u)] ∧ r = .ok none) ∨
      (∃ pre obj e, tr = pre ++ [Call.Update obj (.error e)] ∧ r = .ok (some e)) := by
  induction h with
  | noStep => intro h0; omega
  | getFailed n s e hget => intro _ hc; simp [List.countP_cons, Call.isUpdate] at hc
  | noSteps n s t hget hsteps => intro _ hc; simp [List.countP_cons, Call.isUpdate] at hc
  | updated n s s2 t st sts u hget hsteps hupd =>
    intro _ _; exact Or.inl ⟨[_], _, u, rfl, rfl⟩
  | failed n s s2 t st sts e hget hsteps hupd hc =>
    intro _ _; exact Or.inr ⟨[_], _, e, rfl, rfl⟩
  | exhausted s s2 t st sts e hget hsteps hupd hc =>
    intro _ _; exact Or.inr ⟨[_], _, e, rfl, rfl⟩
  | retried n s s2 t st sts e rest r hget hsteps hupd hc hrest ih =>
    intro _ hcount
    have hrestc : rest.countP Call.isUpdate = n + 1 := by
      simp [List.countP_cons, Call.isUpdate] at hcount
      omega
    rcases ih (by omega) hrestc with ⟨pre, obj, u, rfl, hr⟩ | ⟨pre, obj, e2, rfl, hr⟩
    · exact Or.inl ⟨_ :: _ :: pre, obj, u, rfl, hr⟩
    · exact Or.inr ⟨_ :: _ :: pre, obj, e2, rfl, hr⟩

/-- The panics of the retry loop are those of the attempt. -/
theorem RetryRun.panics {σ : Type} {c : TaskInterface σ} {n : Nat} {tr : List Call}
    {r : Except Panic (Option StatusError)} (h : RetryRun c n tr r) :
    ∀ p, r = .error p →
      (∃ e, p = .errorf "Failed to get the latest version of Task: %v" e) ∨
      p = .indexOutOfRange 0 0 := by
  induction h with
  | getFailed n s e hget =>
    intro p hp
    simp only [Except.error.injEq] at hp
    exact Or.inl ⟨e, hp.symm⟩
  | noSteps n s t hget hsteps =>
    intro p hp
    simp only [Except.error.injEq] at hp
    exact Or.inr hp.symm
  | retried n s s2 t st sts e rest r hget hsteps hupd hc hrest ih => exact ih
  | _ => intro p hp; simp at hp

/-- A Get or an Update of a run of `main` is a call of its update loop, and
a loop that panics or returns an error ends the run. -/
theorem MainRun.inLoop {σ : Type} {c : TaskInterface σ} {tr : List Call}
    {r : Except Panic Unit} (hrun : MainRun c tr r) {pre post : List Call} {x : Call}
    (h : tr = pre ++ x :: post) (hx : x.isGet = true ∨ x.isUpdate = true) :
    ∃ t utr rr pre1 post1 tail,
      pre = Call.Create task (.ok t) :: pre1 ∧ utr = pre1 ++ x :: post1 ∧
      post = post1 ++ tail ∧ RetryRun c 5 utr rr ∧
      (∀ p, rr = .error p → tail = [] ∧ r = .error p) ∧
      (∀ e, rr = .ok (some e) → tail = [] ∧ r = .error (.errorf "Update failed: %v" e)) := by
  rcases hrun with ⟨e⟩ | ⟨t, hs⟩ | ⟨t, msg⟩ | ⟨t, utr, p, hr⟩ | ⟨t, utr, e, hr⟩ |
    ⟨t, utr, msg, hr⟩ | ⟨t, utr, e, hr⟩ | ⟨t, utr, l, msg, hr⟩ | ⟨t, utr, l, e, hr⟩ |
    ⟨t, utr, l, hr⟩
  · rcases pre with _ | ⟨q, pre⟩ <;> simp at h
    obtain ⟨rfl, rfl⟩ := h
    simp [Call.isGet, Call.isUpdate] at hx
  · rcases pre with _ | ⟨q, pre⟩ <;> simp at h
    obtain ⟨rfl, rfl⟩ := h
    simp [Call.isGet, Call.isUpdate] at hx
  · rcases pre with _ | ⟨q, pre⟩ <;> simp at h
    obtain ⟨rfl, rfl⟩ := h
    simp [Call.isGet, Call.isUpdate] at hx
  · have h2 : Call.Create task (.ok t) :: (utr ++ []) = pre ++ x :: post := by simpa using h
    rcases cons_append_split h2 with ⟨rfl, rfl, rfl⟩ | ⟨pre1, post1, rfl, hu, rfl⟩ |
      ⟨pre2, rfl, ht⟩
    · simp [Call.isGet, Call.isUpdate] at hx
    · exact ⟨t, utr, _, pre1, post1, [], rfl, hu, rfl, hr,
        fun q hq => ⟨rfl, by simp only [Except.error.injEq] at hq; rw [hq]⟩,
        fun e he => by simp at he⟩
    · simp at ht
  · have h2 : Call.Create task (.ok t) :: (utr ++ []) = pre ++ x :: post := by simpa using h
    rcases cons_append_split h2 with ⟨rfl, rfl, rfl⟩ | ⟨pre1, post1, rfl, hu, rfl⟩ |
      ⟨pre2, rfl, ht⟩
    · simp [Call.isGet, Call.isUpdate] at hx
    · exact ⟨t, utr, _, pre1, post1, [], rfl, hu, rfl, hr,
        fun q hq => by simp at hq,
        fun e2 he => ⟨rfl, by simp only [Except.ok.injEq, Option.some.injEq] at he; rw [he]⟩⟩
    · simp at ht
  · have h2 : Call.Create task (.ok t) :: (utr ++ []) = pre ++ x :: post := by simpa using h
    rcases cons_append_split h2 with ⟨rfl, rfl, rfl⟩ | ⟨pre1, post1, rfl, hu, rfl⟩ |
      ⟨pre2, rfl, ht⟩
    · simp [Call.isGet, Call.isUpdate] at hx
    · exact ⟨t, utr, _, pre1, post1, [], rfl, hu, rfl, hr,
        fun q hq => by simp at hq, fun e he => by simp at he⟩
    · simp at ht
  · rcases cons_append_split h with ⟨rfl, rfl, rfl⟩ | ⟨pre1, post1, rfl, hu, rfl⟩ |
      ⟨pre2, rfl, ht⟩
    · simp [Call.isGet, Call.isUpdate] at hx
    · exact ⟨t, utr, _, pre1, post1, _, rfl, hu, rfl, hr,
        fun q hq => by simp at hq, fun e he => by simp at he⟩
    · rcases pre2 with _ | ⟨q, pre2⟩ <;> simp at ht
      obtain ⟨rfl, rfl⟩ := ht
      simp [Call.isGet, Call.isUpdate] at hx
  · rcases cons_append_split h with ⟨rfl, rfl, rfl⟩ | ⟨pre1, post1, rfl, hu, rfl⟩ |
      ⟨pre2, rfl, ht⟩
    · simp [Call.isGet, Call.isUpdate] at hx
    · exact ⟨t, utr, _, pre1, post1, _, rfl, hu, rfl, hr,
        fun q hq => by simp at hq, fun e he => by simp at he⟩
    · rcases pre2 with _ | ⟨q, pre2⟩ <;> simp at ht
      obtain ⟨rfl, rfl⟩ := ht
      simp [Call.isGet, Call.isUpdate] at hx
  · rcases cons_append_split h with ⟨rfl, rfl, rfl⟩ | ⟨pre1, post1, rfl, hu, rfl⟩ |
      ⟨pre2, rfl, ht⟩
    · simp [Call.isGet, Call.isUpdate] at hx
    · exact ⟨t, utr, _, pre1, post1, _, rfl, hu, rfl, hr,
        fun q hq => by simp at hq, fun e he => by simp at he⟩
    · rcases pre2 with _ | ⟨q, _ | ⟨q2, pre2⟩⟩ <;> simp at ht
      · obtain ⟨rfl, rfl⟩ := ht
        simp [Call.isGet, Call.isUpdate] at hx
      · obtain ⟨rfl, rfl, rfl⟩ := ht
        simp [Call.isGet, Call.isUpdate] at hx
  · rcases cons_append_split h with ⟨rfl, rfl, rfl⟩ | ⟨pre1, post1, rfl, hu, rfl⟩ |
      ⟨pre2, rfl, ht⟩
    · simp [Call.isGet, Call.isUpdate] at hx
    · exact ⟨t, utr, _, pre1, post1, _, rfl, hu, rfl, hr,
        fun q hq => by simp at hq, fun e he => by simp at he⟩
    · rcases pre2 with _ | ⟨q, _ | ⟨q2, pre2⟩⟩ <;> simp at ht
      · obtain ⟨rfl, rfl⟩ := ht
        simp [Call.isGet, Call.isUpdate] at hx
      · obtain ⟨rfl, rfl, rfl⟩ := ht
        simp [Call.isGet, Call.isUpdate] at hx

/-- The writes of a run of `main` are those of its update loop. -/
theorem MainRun.loop {σ : Type} {c : TaskInterface σ} {tr : List Call}
    {r : Except Panic Unit} (hrun : MainRun c tr r) :
    (tr.countP Call.isUpdate = 0 ∧ ∀ e, r ≠ .error (.errorf "Update failed: %v" e)) ∨
    ∃ t utr rr tail, tr = Call.Create task (.ok t) :: (utr ++ tail) ∧
      RetryRun c 5 utr rr ∧ tail.countP Call.isUpdate = 0 ∧
      (∀ obj res, Call.Update obj res ∈ tr → Call.Update obj res ∈ utr) ∧
      (∀ p, rr = .error p → tail = [] ∧ r = .error p) ∧
      (∀ e, rr = .ok (some e) → tail = [] ∧ r = .error (.errorf "Update failed: %v" e)) ∧
      (rr = .ok none → ∀ e, r ≠ .error (.errorf "Update failed: %v" e)) := by
  rcases hrun with ⟨e⟩ | ⟨t, hs⟩ | ⟨t, msg⟩ | ⟨t, utr, p, hr⟩ | ⟨t, utr, e, hr⟩ |
    ⟨t, utr, msg, hr⟩ | ⟨t, utr, e, hr⟩ | ⟨t, utr, l, msg, hr⟩ | ⟨t, utr, l, e, hr⟩ |
    ⟨t, utr, l, hr⟩
  · exact Or.inl ⟨by simp [List.countP_cons, Call.isUpdate], fun _ => by simp⟩
  · exact Or.inl ⟨by simp [List.countP_cons, Call.isUpdate], fun _ => by simp⟩
  · exact Or.inl ⟨by simp [List.countP_cons, Call.isUpdate], fun _ => by simp⟩
  · exact Or.inr ⟨t, utr, _, [], by simp, hr, by simp, by simp,
      fun q hq => ⟨rfl, by simp only [Except.error.injEq] at hq; rw [hq]⟩,
      fun e he => by simp at he, fun he => by simp at he⟩
  · exact Or.inr ⟨t, utr, _, [], by simp, hr, by simp, by simp,
      fun q hq => by simp at hq,
      fun e2 he => ⟨rfl, by simp only [Except.ok.injEq, Option.some.injEq] at he; rw [he]⟩,
      fun he => by simp at he⟩
  · exact Or.inr ⟨t, utr, _, [], by simp, hr, by simp, by simp,
      fun q hq => by simp at hq, fun e he => by simp at he, fun _ e => by simp⟩
  · exact Or.inr ⟨t, utr, _, _, rfl, hr, by simp [List.countP_cons, Call.isUpdate], by simp,
      fun q hq => by simp at hq, fun e he => by simp at he, fun _ e => by simp⟩
  · exact Or.inr ⟨t, utr, _, _, rfl, hr, by simp [List.countP_cons, Call.isUpdate], by simp,
      fun q hq => by simp at hq, fun e he => by simp at he, fun _ e => by simp⟩
  · exact Or.inr ⟨t, utr, _, _, rfl, hr, by simp [List.countP_cons, Call.isUpdate], by simp,
      fun q hq => by simp at hq, fun e he => by simp at he, fun _ e => by simp⟩
  · exact Or.inr ⟨t, utr, _, _, rfl, hr, by simp [List.countP_cons, Call.isUpdate], by simp,
      fun q hq => by simp at hq, fun e he => by simp at he, fun _ e => by simp⟩

/-- C4, amended: in the update loop of main a Conflict answered to a write is
recovered by a new attempt only while steps remain.  For an error `e` that
`errors.IsConflict` accepts: (A) the loop returns `e` only when it has made all
5 writes, every one of them was answered with a Conflict, and `e` is the answer
to the fifth; (B) when the loop has made 5 writes and every one of them was
answered with a Conflict, it returns the very error the fifth write was answered
with, and (B2) it returns `e` whenever its last call is a write answered `e`;
(C) when the log of main holds 5 writes, every one answered with a Conflict,
main panics with `fmt.Errorf("Update failed: %v", err)`, `err` being the Conflict
the fifth write was answered with; (D) main panics with "Update failed" on `e`
only in that case; (E) a Get answered with an error, a Conflict or not, is the
last call of main, which panics with
`fmt.Errorf("Failed to get the latest version of Task: %v", err)`.  No error of
another kind is put in the place of the Conflict. -/
theorem conflict_escapes_only_when_exhausted {σ : Type} (c : TaskInterface σ) (w : World σ)
    (e : StatusError) (hc : IsConflict e = true) :
    ((RetryOnConflict DefaultRetry (updateAttempt c) w).1 = .ok (some e) →
      (newCalls w (RetryOnConflict DefaultRetry (updateAttempt c) w).2).countP Call.isUpdate
        = 5 ∧
      (∃ pre obj, newCalls w (RetryOnConflict DefaultRetry (updateAttempt c) w).2 =
        pre ++ [Call.Update obj (.error e)]) ∧
      ∀ obj res, Call.Update obj res ∈
          newCalls w (RetryOnConflict DefaultRetry (updateAttempt c) w).2 →
        ∃ e2, res = .error e2 ∧ IsConflict e2 = true) ∧
    ((newCalls w (RetryOnConflict DefaultRetry (updateAttempt c) w).2).countP Call.isUpdate
        = 5 →
      (∀ obj res, Call.Update obj res ∈
          newCalls w (RetryOnConflict DefaultRetry (updateAttempt c) w).2 →
        ∃ e2, res = .error e2 ∧ IsConflict e2 = true) →
      ∃ pre obj e5, newCalls w (RetryOnConflict DefaultRetry (updateAttempt c) w).2 =
          pre ++ [Call.Update obj (.error e5)] ∧ IsConflict e5 = true ∧
        (RetryOnConflict DefaultRetry (updateAttempt c) w).1 = .ok (some e5)) ∧
    (∀ pre obj, newCalls w (RetryOnConflict DefaultRetry (updateAttempt c) w).2 =
        pre ++ [Call.Update obj (.error e)] →
      (RetryOnConflict DefaultRetry (updateAttempt c) w).1 = .ok (some e)) ∧
    ((newCalls w (main c w).2).countP Call.isUpdate = 5 →
      (∀ obj res, Call.Update obj res ∈ newCalls w (main c w).2 →
        ∃ e2, res = .error e2 ∧ IsConflict e2 = true) →
      ∃ pre obj e5, newCalls w (main c w).2 = pre ++ [Call.Update obj (.error e5)] ∧
        IsConflict e5 = true ∧
        (main c w).1 = .error (.errorf "Update failed: %v" e5)) ∧
    ((main c w).1 = .error (.errorf "Update failed: %v" e) →
      (newCalls w (main c w).2).countP Call.isUpdate = 5 ∧
      (∃ pre obj, newCalls w (main c w).2 = pre ++ [Call.Update obj (.error e)]) ∧
      ∀ obj res, Call.Update obj res ∈ newCalls w (main c w).2 →
        ∃ e2, res = .error e2 ∧ IsConflict e2 = true) ∧
    (∀ pre nm e2 post, newCalls w (main c w).2 = pre ++ Call.Get nm (.error e2) :: post →
      post = [] ∧
      (main c w).1 = .error (.errorf "Failed to get the latest version of Task: %v" e2)) := by
  have hrun := updateLoop_run c w
  obtain ⟨tr, htr, hmain⟩ := main_run c w
  rw [newCalls_eq htr]
  generalize (main c w).1 = r at hmain ⊢
  refine ⟨fun hres => hrun.conflict e hres hc, ?_, ?_, ?_, ?_, ?_⟩
  · intro hcount hall
    rcases hrun.full (by decide) hcount with ⟨pre, obj, u, hlog, -⟩ | ⟨pre, obj, e5, hlog, hr⟩
    · obtain ⟨e2, he2, -⟩ := hall obj (.ok u) (by rw [hlog]; simp)
      simp at he2
    · obtain ⟨e2, he2, hc2⟩ := hall obj (.error e5) (by rw [hlog]; simp)
      simp only [Except.error.injEq] at he2
      subst he2
      exact ⟨pre, obj, e5, hlog, hc2, hr⟩
  · intro pre obj hlog
    have hf := hrun.follows pre _ [] hlog
    simp only [Follows] at hf
    rcases hf with ⟨-, hr, -⟩ | ⟨-, -, a, rest, hnil⟩
    · exact hr
    · simp at hnil
  · intro hcount hall
    rcases hmain.loop with ⟨h0, -⟩ | ⟨t, utr, rr, tail, rfl, hr, htail, hmem, -, hfail, -⟩
    · omega
    · have hcu : utr.countP Call.isUpdate = 5 := by
        simp only [List.countP_cons, List.countP_append, Call.isUpdate, htail] at hcount
        simpa using hcount
      rcases hr.full (by decide) hcu with ⟨pre, obj, u, hlog, -⟩ | ⟨pre, obj, e5, hlog, hrr⟩
      · obtain ⟨e2, he2, -⟩ := hall obj (.ok u) (by rw [hlog]; simp)
        simp at he2
      · obtain ⟨e2, he2, hc2⟩ := hall obj (.error e5) (by rw [hlog]; simp)
        simp only [Except.error.injEq] at he2
        subst he2
        obtain ⟨rfl, hres⟩ := hfail e5 hrr
        exact ⟨Call.Create task (.ok t) :: pre, obj, e5, by rw [hlog]; simp, hc2, hres⟩
  · intro hres
    rcases hmain.loop with ⟨-, hne⟩ | ⟨t, utr, rr, tail, rfl, hr, htail, hmem, hpanic, hfail, hok⟩
    · exact absurd hres (hne e)
    · rcases rr with p | _ | e2
      · obtain ⟨-, hrp⟩ := hpanic p rfl
        rw [hrp] at hres
        simp only [Except.error.injEq] at hres
        rcases hr.panics p rfl with ⟨e3, hp⟩ | hp
        · rw [hp] at hres
          simp at hres
        · rw [hp] at hres
          simp at hres
      · exact absurd hres (hok rfl e)
      · obtain ⟨rfl, hre⟩ := hfail e2 rfl
        rw [hre] at hres
        simp only [Except.error.injEq, Panic.errorf.injEq, true_and] at hres
        subst hres
        obtain ⟨hcount, ⟨pre, obj, hlog⟩, hall⟩ := hr.conflict e2 rfl hc
        refine ⟨?_, ⟨Call.Create task (.ok t) :: pre, obj, by rw [hlog]; simp⟩, ?_⟩
        · simp only [List.countP_cons, List.countP_append, Call.isUpdate, hcount]
          simp
        · intro obj2 res hm
          exact hall obj2 res (hmem obj2 res hm)
  · intro pre nm e2 post hlog
    obtain ⟨t, utr, rr, pre1, post1, tail, -, hu, rfl, hr, hpanic, -⟩ :=
      hmain.inLoop hlog (Or.inl rfl)
    obtain ⟨rfl, hrr⟩ := (hr.part hu).2.1 nm e2 rfl
    obtain ⟨rfl, hres⟩ := hpanic _ hrr
    exact ⟨rfl, hres⟩

/-- The run of the amended C4 on the client whose writes always meet a conflict:
five writes, then the Conflict error comes out of the loop and main panics
with it. -/
theorem conflict_escapes_only_when_exhausted_witness :
    IsConflict ⟨StatusReasonConflict, 409, "sample-task"⟩ = true ∧
    (RetryOnConflict DefaultRetry (updateAttempt contended) (quiet ())).1 =
      .ok (some ⟨StatusReasonConflict, 409, "sample-task"⟩) ∧
    (newCalls (quiet ())
      (RetryOnConflict DefaultRetry (updateAttempt contended) (quiet ())).2).countP
        Call.isUpdate = 5 ∧
    (newCalls (quiet ()) (main contended (quiet ())).2).countP Call.isUpdate = 5 :=
  ⟨by decide, rfl,
    ((conflict_escapes_only_when_exhausted contended (quiet ())
      ⟨StatusReasonConflict, 409, "sample-task"⟩ (by decide)).1 rfl).1,
    ((conflict_escapes_only_when_exhausted contended (quiet ())
      ⟨StatusReasonConflict, 409, "sample-task"⟩ (by decide)).2.2.2.2.1 rfl).1⟩

/-- C9: whatever the store answers, `main` stops at the first failing step.
For every call `x` of a run of main, `pre` the calls before it and `post` the
calls after it: a failed Create is the only call and main panics with its
error; a failed Get is the last call and main panics with its error; a failed
Update is either the last call, main panicking with its error, or a Conflict
followed by the Get of a new attempt; a failed List is the last call and main
panics with its error; a failed Delete is the last call and main panics with
its error; a Get or an Update comes only after a successful Create; List is
called only right after a successful Update that follows a successful Create;
Delete is the last call and is called only right after a successful List that
comes right after a successful Update that follows a successful Create. -/
theorem main_stops_at_first_failure {σ : Type} (c : TaskInterface σ) (w : World σ)
    (pre post : List Call) (x : Call)
    (h : newCalls w (main c w).2 = pre ++ x :: post) :
    (∀ obj e, x = Call.Create obj (.error e) →
      pre = [] ∧ post = [] ∧ (main c w).1 = .error (.err e)) ∧
    (∀ nm e, x = Call.Get nm (.error e) →
      post = [] ∧ (main c w).1 =
        .error (.errorf "Failed to get the latest version of Task: %v" e)) ∧
    (∀ obj e, x = Call.Update obj (.error e) →
      (post = [] ∧ (main c w).1 = .error (.errorf "Update failed: %v" e)) ∨
      (IsConflict e = true ∧ ∃ a rest, post = Call.Get "sample-task" a :: rest)) ∧
    (∀ e, x = Call.List (.error e) → post = [] ∧ (main c w).1 = .error (.err e)) ∧
    (∀ nm o e, x = Call.Delete nm o (some e) →
      post = [] ∧ (main c w).1 = .error (.err e)) ∧
    (x.isGet = true ∨ x.isUpdate = true →
      ∃ created rest, pre = Call.Create task (.ok created) :: rest) ∧
    (∀ a, x = Call.List a →
      ∃ created attempts obj u,
        pre = Call.Create task (.ok created) :: (attempts ++ [Call.Update obj (.ok u)])) ∧
    (∀ nm o a, x = Call.Delete nm o a →
      post = [] ∧ ∃ created attempts obj u l,
        pre = Call.Create task (.ok created) ::
          (attempts ++ [Call.Update obj (.ok u), Call.List (.ok l)])) := by
  obtain ⟨tr, htr, hrun⟩ := main_run c w
  rw [newCalls_eq htr] at h
  generalize (main c w).1 = r at hrun ⊢
  rcases hrun with ⟨e⟩ | ⟨t, hs⟩ | ⟨t, msg⟩ | ⟨t, utr, p, hr⟩ | ⟨t, utr, e, hr⟩ |
    ⟨t, utr, msg, hr⟩ | ⟨t, utr, e, hr⟩ | ⟨t, utr, l, msg, hr⟩ | ⟨t, utr, l, e, hr⟩ |
    ⟨t, utr, l, hr⟩
  · rcases pre with _ | ⟨q, pre⟩ <;> simp at h
    obtain ⟨rfl, rfl⟩ := h
    simp [Call.isGet, Call.isUpdate]
  · rcases pre with _ | ⟨q, pre⟩ <;> simp at h
    obtain ⟨rfl, rfl⟩ := h
    simp [Call.isGet, Call.isUpdate]
  · rcases pre with _ | ⟨q, pre⟩ <;> simp at h
    obtain ⟨rfl, rfl⟩ := h
    simp [Call.isGet, Call.isUpdate]
  · have h2 : Call.Create task (.ok t) :: (utr ++ []) = pre ++ x :: post := by
      simpa using h
    rcases cons_append_split h2 with ⟨rfl, rfl, rfl⟩ | ⟨pre1, post1, rfl, hu, rfl⟩ | ⟨pre2, rfl, ht⟩
    · simp [Call.isGet, Call.isUpdate]
    · obtain ⟨hk, hg, hupd⟩ := hr.part hu
      refine ⟨?_, ?_, ?_, ?_, ?_, ?_, ?_, ?_⟩
      · intro obj e hx; subst hx; simp [Call.isGet, Call.isUpdate] at hk
      · intro nm e hx
        obtain ⟨h1, h3⟩ := hg nm e hx
        simp_all
      · intro obj e hx
        rcases hupd obj e hx with ⟨h1, h3⟩ | ⟨h1, a, rest, h3⟩
        · simp_all
        · exact Or.inr ⟨h1, a, rest ++ _, by rw [h3]; rfl⟩
      · intro e hx; subst hx; simp [Call.isGet, Call.isUpdate] at hk
      · intro nm o e hx; subst hx; simp [Call.isGet, Call.isUpdate] at hk
      · intro _; exact ⟨_, _, rfl⟩
      · intro a hx; subst hx; simp [Call.isGet, Call.isUpdate] at hk
      · intro nm o a hx; subst hx; simp [Call.isGet, Call.isUpdate] at hk
    · simp at ht
  · have h2 : Call.Create task (.ok t) :: (utr ++ []) = pre ++ x :: post := by
      simpa using h
    rcases cons_append_split h2 with ⟨rfl, rfl, rfl⟩ | ⟨pre1, post1, rfl, hu, rfl⟩ | ⟨pre2, rfl, ht⟩
    · simp [Call.isGet, Call.isUpdate]
    · obtain ⟨hk, hg, hupd⟩ := hr.part hu
      refine ⟨?_, ?_, ?_, ?_, ?_, ?_, ?_, ?_⟩
      · intro obj e hx; subst hx; simp [Call.isGet, Call.isUpdate] at hk
      · intro nm e hx
        obtain ⟨h1, h3⟩ := hg nm e hx
        simp_all
      · intro obj e hx
        rcases hupd obj e hx with ⟨h1, h3⟩ | ⟨h1, a, rest, h3⟩
        · simp_all
        · exact Or.inr ⟨h1, a, rest ++ _, by rw [h3]; rfl⟩
      · intro e hx; subst hx; simp [Call.isGet, Call.isUpdate] at hk
      · intro nm o e hx; subst hx; simp [Call.isGet, Call.isUpdate] at hk
      · intro _; exact ⟨_, _, rfl⟩
      · intro a hx; subst hx; simp [Call.isGet, Call.isUpdate] at hk
      · intro nm o a hx; subst hx; simp [Call.isGet, Call.isUpdate] at hk
    · simp at ht
  · have h2 : Call.Create task (.ok t) :: (utr ++ []) = pre ++ x :: post := by
      simpa using h
    rcases cons_append_split h2 with ⟨rfl, rfl, rfl⟩ | ⟨pre1, post1, rfl, hu, rfl⟩ | ⟨pre2, rfl, ht⟩
    · simp [Call.isGet, Call.isUpdate]
    · obtain ⟨hk, hg, hupd⟩ := hr.part hu
      refine ⟨?_, ?_, ?_, ?_, ?_, ?_, ?_, ?_⟩
      · intro obj e hx; subst hx; simp [Call.isGet, Call.isUpdate] at hk
      · intro nm e hx
        obtain ⟨h1, h3⟩ := hg nm e hx
        simp_all
      · intro obj e hx
        rcases hupd obj e hx with ⟨h1, h3⟩ | ⟨h1, a, rest, h3⟩
        · simp_all
        · exact Or.inr ⟨h1, a, rest ++ _, by rw [h3]; rfl⟩
      · intro e hx; subst hx; simp [Call.isGet, Call.isUpdate] at hk
      · intro nm o e hx; subst hx; simp [Call.isGet, Call.isUpdate] at hk
      · intro _; exact ⟨_, _, rfl⟩
      · intro a hx; subst hx; simp [Call.isGet, Call.isUpdate] at hk
      · intro nm o a hx; subst hx; simp [Call.isGet, Call.isUpdate] at hk
    · simp at ht
  · have h2 := h
    rcases cons_append_split h2 with ⟨rfl, rfl, rfl⟩ | ⟨pre1, post1, rfl, hu, rfl⟩ | ⟨pre2, rfl, ht⟩
    · simp [Call.isGet, Call.isUpdate]
    · obtain ⟨hk, hg, hupd⟩ := hr.part hu
      refine ⟨?_, ?_, ?_, ?_, ?_, ?_, ?_, ?_⟩
      · intro obj e hx; subst hx; simp [Call.isGet, Call.isUpdate] at hk
      · intro nm e hx
        obtain ⟨h1, h3⟩ := hg nm e hx
        simp_all
      · intro obj e hx
        rcases hupd obj e hx with ⟨h1, h3⟩ | ⟨h1, a, rest, h3⟩
        · simp_all
        · exact Or.inr ⟨h1, a, rest ++ _, by rw [h3]; rfl⟩
      · intro e hx; subst hx; simp [Call.isGet, Call.isUpdate] at hk
      · intro nm o e hx; subst hx; simp [Call.isGet, Call.isUpdate] at hk
      · intro _; exact ⟨_, _, rfl⟩
      · intro a hx; subst hx; simp [Call.isGet, Call.isUpdate] at hk
      · intro nm o a hx; subst hx; simp [Call.isGet, Call.isUpdate] at hk
    · rcases pre2 with _ | ⟨q, pre2⟩ <;> simp at ht
      obtain ⟨rfl, rfl⟩ := ht
      rcases hr.success with ⟨h0, -⟩ | ⟨attempts, obj, u, rfl⟩
      · omega
      · simp only [Call.isGet, Call.isUpdate, List.append_nil]
        simp
        exact ⟨_, _, _, rfl⟩
  · have h2 := h
    rcases cons_append_split h2 with ⟨rfl, rfl, rfl⟩ | ⟨pre1, post1, rfl, hu, rfl⟩ | ⟨pre2, rfl, ht⟩
    · simp [Call.isGet, Call.isUpdate]
    · obtain ⟨hk, hg, hupd⟩ := hr.part hu
      refine ⟨?_, ?_, ?_, ?_, ?_, ?_, ?_, ?_⟩
      · intro obj e hx; subst hx; simp [Call.isGet, Call.isUpdate] at hk
      · intro nm e hx
        obtain ⟨h1, h3⟩ := hg nm e hx
        simp_all
      · intro obj e hx
        rcases hupd obj e hx with ⟨h1, h3⟩ | ⟨h1, a, rest, h3⟩
        · simp_all
        · exact Or.inr ⟨h1, a, rest ++ _, by rw [h3]; rfl⟩
      · intro e hx; subst hx; simp [Call.isGet, Call.isUpdate] at hk
      · intro nm o e hx; subst hx; simp [Call.isGet, Call.isUpdate] at hk
      · intro _; exact ⟨_, _, rfl⟩
      · intro a hx; subst hx; simp [Call.isGet, Call.isUpdate] at hk
      · intro nm o a hx; subst hx; simp [Call.isGet, Call.isUpdate] at hk
    · rcases pre2 with _ | ⟨q, pre2⟩ <;> simp at ht
      obtain ⟨rfl, rfl⟩ := ht
      rcases hr.success with ⟨h0, -⟩ | ⟨attempts, obj, u, rfl⟩
      · omega
      · simp only [Call.isGet, Call.isUpdate, List.append_nil]
        simp
        exact ⟨_, _, _, rfl⟩
  · have h2 := h
    rcases cons_append_split h2 with ⟨rfl, rfl, rfl⟩ | ⟨pre1, post1, rfl, hu, rfl⟩ | ⟨pre2, rfl, ht⟩
    · simp [Call.isGet, Call.isUpdate]
    · obtain ⟨hk, hg, hupd⟩ := hr.part hu
      refine ⟨?_, ?_, ?_, ?_, ?_, ?_, ?_, ?_⟩
      · intro obj e hx; subst hx; simp [Call.isGet, Call.isUpdate] at hk
      · intro nm e hx
        obtain ⟨h1, h3⟩ := hg nm e hx
        simp_all
      · intro obj e hx
        rcases hupd obj e hx with ⟨h1, h3⟩ | ⟨h1, a, rest, h3⟩
        · simp_all
        · exact Or.inr ⟨h1, a, rest ++ _, by rw [h3]; rfl⟩
      · intro e hx; subst hx; simp [Call.isGet, Call.isUpdate] at hk
      · intro nm o e hx; subst hx; simp [Call.isGet, Call.isUpdate] at hk
      · intro _; exact ⟨_, _, rfl⟩
      · intro a hx; subst hx; simp [Call.isGet, Call.isUpdate] at hk
      · intro nm o a hx; subst hx; simp [Call.isGet, Call.isUpdate] at hk
    · rcases hr.success with ⟨h0, -⟩ | ⟨attempts, obj, u, rfl⟩
      · omega
      · rcases pre2 with _ | ⟨q, _ | ⟨q2, pre2⟩⟩ <;> simp at ht
        · obtain ⟨rfl, rfl⟩ := ht
          simp
          exact ⟨_, _, _, rfl⟩
        · obtain ⟨rfl, rfl, rfl⟩ := ht
          simp
          exact ⟨_, _, _, _, rfl⟩
  · have h2 := h
    rcases cons_append_split h2 with ⟨rfl, rfl, rfl⟩ | ⟨pre1, post1, rfl, hu, rfl⟩ | ⟨pre2, rfl, ht⟩
    · simp [Call.isGet, Call.isUpdate]
    · obtain ⟨hk, hg, hupd⟩ := hr.part hu
      refine ⟨?_, ?_, ?_, ?_, ?_, ?_, ?_, ?_⟩
      · intro obj e hx; subst hx; simp [Call.isGet, Call.isUpdate] at hk
      · intro nm e hx
        obtain ⟨h1, h3⟩ := hg nm e hx
        simp_all
      · intro obj e hx
        rcases hupd obj e hx with ⟨h1, h3⟩ | ⟨h1, a, rest, h3⟩
        · simp_all
        · exact Or.inr ⟨h1, a, rest ++ _, by rw [h3]; rfl⟩
      · intro e hx; subst hx; simp [Call.isGet, Call.isUpdate] at hk
      · intro nm o e hx; subst hx; simp [Call.isGet, Call.isUpdate] at hk
      · intro _; exact ⟨_, _, rfl⟩
      · intro a hx; subst hx; simp [Call.isGet, Call.isUpdate] at hk
      · intro nm o a hx; subst hx; simp [Call.isGet, Call.isUpdate] at hk
    · rcases hr.success with ⟨h0, -⟩ | ⟨attempts, obj, u, rfl⟩
      · omega
      · rcases pre2 with _ | ⟨q, _ | ⟨q2, pre2⟩⟩ <;> simp at ht
        · obtain ⟨rfl, rfl⟩ := ht
          simp
          exact ⟨_, _, _, rfl⟩
        · obtain ⟨rfl, rfl, rfl⟩ := ht
          simp
          exact ⟨_, _, _, _, rfl⟩

/-- Two runs of C9.  On the client whose List fails, the failed List is the
fourth and last call and main panics with its error.  On the client whose
writes are answered with code 409 and no reason, main makes five writes, and its
first write is either the last call or a Conflict followed by the Get of a new
attempt. -/
theorem main_stops_at_first_failure_witness :
    newCalls (quiet ()) (main unlistable (quiet ())).2 =
      [Call.Create task (.ok ⟨"sample-task", "1",
          [⟨"step1", "ubuntu", ["echo", "Hello, Tekton!"]⟩]⟩),
        Call.Get "sample-task" (.ok ⟨"sample-task", "1",
          [⟨"step1", "ubuntu", ["echo", "Hello, Tekton!"]⟩]⟩),
        Call.Update ⟨"sample-task", "1", [⟨"step1", "busybox", ["echo", "Updated Hello Tekton"]⟩]⟩
          (.ok ⟨"sample-task", "2", [⟨"step1", "busybox", ["echo", "Updated Hello Tekton"]⟩]⟩)] ++
      Call.List (.error ⟨StatusReasonServiceUnavailable, 503, "list"⟩) :: [] ∧
    (([] : List Call) = [] ∧
      (main unlistable (quiet ())).1 =
        .error (.err ⟨StatusReasonServiceUnavailable, 503, "list"⟩)) ∧
    (newCalls (quiet ()) (main unlabelled (quiet ())).2).countP Call.isUpdate = 5 ∧
    (((newCalls (quiet ()) (main unlabelled (quiet ())).2).drop 3 = [] ∧
        (main unlabelled (quiet ())).1 =
          .error (.errorf "Update failed: %v" ⟨StatusReasonUnknown, 409, "sample-task"⟩)) ∨
      (IsConflict ⟨StatusReasonUnknown, 409, "sample-task"⟩ = true ∧
        ∃ a rest, (newCalls (quiet ()) (main unlabelled (quiet ())).2).drop 3 =
          Call.Get "sample-task" a :: rest)) :=
  ⟨by rfl, (main_stops_at_first_failure unlistable (quiet ()) _ [] _ (by rfl)).2.2.2.1 _ rfl,
    by decide,
    (main_stops_at_first_failure unlabelled (quiet ())
      [Call.Create task (.ok ⟨"sample-task", "1",
          [⟨"step1", "ubuntu", ["echo", "Hello, Tekton!"]⟩]⟩),
        Call.Get "sample-task" (.ok ⟨"sample-task", "1",
          [⟨"step1", "ubuntu", ["echo", "Hello, Tekton!"]⟩]⟩)]
      _
      (Call.Update
        ⟨"sample-task", "1", [⟨"step1", "busybox", ["echo", "Updated Hello Tekton"]⟩]⟩
        (.error ⟨StatusReasonUnknown, 409, "sample-task"⟩))
      (by rfl)).2.2.1 _ _ rfl⟩

/-- C5, at the failing input: against the reference store, empty at the start,
main runs to the end; the write of the update stored image "busybox" under
version "2"; yet the one "Updated Task" line main prints carries image "ubuntu"
and the command of the object Create returned. -/
theorem updated_task_line_shows_the_created_task :
    (main clusterClient (quiet ⟨[], 0⟩)).1 = .ok () ∧
    (newCalls (quiet ⟨[], 0⟩) (main clusterClient (quiet ⟨[], 0⟩)).2).get? 2 =
      some (Call.Update
        ⟨"sample-task", "1", [⟨"step1", "busybox", ["echo", "Updated Hello Tekton"]⟩]⟩
        (.ok ⟨"sample-task", "2", [⟨"step1", "busybox", ["echo", "Updated Hello Tekton"]⟩]⟩)) ∧
    (main clusterClient (quiet ⟨[], 0⟩)).2.stdout.filter
        (fun p => p.format == "Updated Task %q. Image: %s, Message: %s\n") =
      [⟨"Updated Task %q. Image: %s, Message: %s\n",
        [.str "sample-task", .str "ubuntu", .strs ["echo", "Hello, Tekton!"]]⟩] := by
  refine ⟨by rfl, by rfl, by decide⟩

/-- C7: against the reference store with an empty namespace and no other
writer, standard input never failing, main runs to the end without a panic
and its calls are, in this order: Create, one Get, one Update, List, Delete
with foreground propagation, each answered with success.  The List answer has
exactly one entry, named "sample-task", with image "busybox" and version "2",
which is not the version "1" assigned at creation; a Get of "sample-task" after
the run is answered NotFound. -/
theorem lifecycle_scenario (scanErr : Nat → Option String) (prompts : Nat)
    (calls : List Call) (stdout : List Printed) (hscan : ∀ n, scanErr n = none) :
    (main clusterClient ⟨⟨[], 0⟩, scanErr, prompts, calls, stdout⟩).1 = .ok () ∧
    newCalls ⟨⟨[], 0⟩, scanErr, prompts, calls, stdout⟩
        (main clusterClient ⟨⟨[], 0⟩, scanErr, prompts, calls, stdout⟩).2 =
      [Call.Create task
          (.ok ⟨"sample-task", "1", [⟨"step1", "ubuntu", ["echo", "Hello, Tekton!"]⟩]⟩),
        Call.Get "sample-task"
          (.ok ⟨"sample-task", "1", [⟨"step1", "ubuntu", ["echo", "Hello, Tekton!"]⟩]⟩),
        Call.Update
          ⟨"sample-task", "1", [⟨"step1", "busybox", ["echo", "Updated Hello Tekton"]⟩]⟩
          (.ok ⟨"sample-task", "2", [⟨"step1", "busybox", ["echo", "Updated Hello Tekton"]⟩]⟩),
        Call.List
          (.ok [⟨"sample-task", "2", [⟨"step1", "busybox", ["echo", "Updated Hello Tekton"]⟩]⟩]),
        Call.Delete "sample-task" ⟨some DeletionPropagation.Foreground⟩ none] ∧
    ("2" : String) ≠ "1" ∧
    (clusterClient.Get
      (main clusterClient ⟨⟨[], 0⟩, scanErr, prompts, calls, stdout⟩).2.store "sample-task").1 =
      .error ⟨StatusReasonNotFound, 404, "sample-task"⟩ := by
  have h1 : toString 1 = "1" := by decide
  have h2 : toString 2 = "2" := by decide
  refine ⟨?_, ?_, by decide, ?_⟩ <;>
  simp [newCalls, main, prompt, hscan, clusterClient, Cluster.lookup, World.print, World.record,
    task, RetryOnConflict, OnError, ExponentialBackoff, OnError.condition, updateAttempt,
    DefaultRetry, h1, h2]

/-- The run of C7 from the world with empty logs. -/
theorem lifecycle_scenario_witness :
    (∀ n, (quiet (⟨[], 0⟩ : Cluster)).scanErr n = none) ∧
    (main clusterClient (quiet ⟨[], 0⟩)).1 = .ok () ∧
    (clusterClient.Get (main clusterClient (quiet ⟨[], 0⟩)).2.store "sample-task").1 =
      .error ⟨StatusReasonNotFound, 404, "sample-task"⟩ :=
  ⟨fun _ => rfl, (lifecycle_scenario (fun _ => none) 0 [] [] (fun _ => rfl)).1,
    (lifecycle_scenario (fun _ => none) 0 [] [] (fun _ => rfl)).2.2.2⟩

/-- Every run of `main` begins with the Create of `task`. -/
theorem main_first_call {σ : Type} (c : TaskInterface σ) (w : World σ) :
    ∃ res, (newCalls w (main c w).2).head? = some (Call.Create task res) := by
  obtain ⟨tr, htr, hrun⟩ := main_run c w
  rw [newCalls_eq htr]
  generalize (main c w).1 = r at hrun
  cases hrun <;> exact ⟨_, rfl⟩

/-- C8, as stated, fails: in the run of main against the reference store the
object submitted to Create does not have the command ["echo","Hello"], and the
candidate written by the update attempt does not have the command
["echo","Updated Hello"]. -/
theorem scenario_payloads_not_as_stated :
    (¬ ∃ res, (newCalls (quiet ⟨[], 0⟩) (main clusterClient (quiet ⟨[], 0⟩)).2).get? 0 =
      some (Call.Create ⟨"sample-task", "", [⟨"step1", "ubuntu", ["echo", "Hello"]⟩]⟩ res)) ∧
    (¬ ∃ rv res, (newCalls (quiet ⟨[], 0⟩) (main clusterClient (quiet ⟨[], 0⟩)).2).get? 2 =
      some (Call.Update ⟨"sample-task", rv, [⟨"step1", "busybox", ["echo", "Updated Hello"]⟩]⟩
        res)) := by
  constructor
  · rintro ⟨res, h⟩
    have h0 : (newCalls (quiet ⟨[], 0⟩) (main clusterClient (quiet ⟨[], 0⟩)).2).get? 0 =
        some (Call.Create task
          (.ok ⟨"sample-task", "1", [⟨"step1", "ubuntu", ["echo", "Hello, Tekton!"]⟩]⟩)) := by
      rfl
    rw [h0] at h
    simp [task] at h
  · rintro ⟨rv, res, h⟩
    have h0 : (newCalls (quiet ⟨[], 0⟩) (main clusterClient (quiet ⟨[], 0⟩)).2).get? 2 =
        some (Call.Update
          ⟨"sample-task", "1", [⟨"step1", "busybox", ["echo", "Updated Hello Tekton"]⟩]⟩
          (.ok ⟨"sample-task", "2",
            [⟨"step1", "busybox", ["echo", "Updated Hello Tekton"]⟩]⟩)) := by
      rfl
    rw [h0] at h
    simp at h

/-- C8, amended: whatever the store answers, the first call of main is the
Create of an object named "sample-task" with no version token and exactly one
step, of name "step1", image "ubuntu" and command ["echo","Hello, Tekton!"].  An
update attempt, from any world, whose Get is answered with an object `t` that
has a first step makes exactly two calls, that Get and an Update whose object
has the steps of `t` with the first step set to image "busybox" and command
["echo","Updated Hello Tekton"]; and in the log of main every Get answered with
such a `t` is followed at once by the Update of that candidate. -/
theorem scenario_payloads {σ : Type} (c : TaskInterface σ) (w : World σ) :
    (∃ res, (newCalls w (main c w).2).head? = some (Call.Create task res)) ∧
    task.Name = "sample-task" ∧ task.ResourceVersion = "" ∧
    task.Steps = [⟨"step1", "ubuntu", ["echo", "Hello, Tekton!"]⟩] ∧
    (∀ (w2 : World σ) (t : Task) (st : Step) (sts : List Step),
      (c.Get w2.store "sample-task").1 = .ok t → t.Steps = st :: sts →
      ∃ obj res st1,
        newCalls w2 (updateAttempt c w2).2 =
          [Call.Get "sample-task" (.ok t), Call.Update obj res] ∧
        obj.Steps = st1 :: sts ∧ st1.Image = "busybox" ∧
        st1.Command = ["echo", "Updated Hello Tekton"]) ∧
    (∀ (pre post : List Call) (nm : String) (t : Task) (st : Step) (sts : List Step),
      newCalls w (main c w).2 = pre ++ Call.Get nm (.ok t) :: post → t.Steps = st :: sts →
      ∃ obj res rest st1,
        post = Call.Update obj res :: rest ∧
        obj.Steps = st1 :: sts ∧ st1.Image = "busybox" ∧
        st1.Command = ["echo", "Updated Hello Tekton"]) := by
  refine ⟨main_first_call c w, rfl, rfl, rfl, ?_, ?_⟩
  · intro w2 t st sts hget hsteps
    rcases updateAttempt_cases c w2 with ⟨e, hg, -⟩ | ⟨t1, hg, hs, -⟩ |
      ⟨t1, st1, sts1, s2, u, hg, hs, -, htr, -⟩ | ⟨t1, st1, sts1, s2, e, hg, hs, -, htr, -⟩
    · rw [hget] at hg
      simp at hg
    · rw [hget] at hg
      simp only [Except.ok.injEq] at hg
      subst hg
      rw [hsteps] at hs
      simp at hs
    · rw [hget] at hg
      simp only [Except.ok.injEq] at hg
      subst hg
      rw [hsteps] at hs
      simp only [List.cons.injEq] at hs
      obtain ⟨rfl, rfl⟩ := hs
      exact ⟨_, _, _, newCalls_eq htr, rfl, rfl, rfl⟩
    · rw [hget] at hg
      simp only [Except.ok.injEq] at hg
      subst hg
      rw [hsteps] at hs
      simp only [List.cons.injEq] at hs
      obtain ⟨rfl, rfl⟩ := hs
      exact ⟨_, _, _, newCalls_eq htr, rfl, rfl, rfl⟩
  · intro pre post nm t st sts hlog hsteps
    obtain ⟨tr, htr, hmain⟩ := main_run c w
    rw [newCalls_eq htr] at hlog
    generalize (main c w).1 = r at hmain
    obtain ⟨t0, utr, rr, pre1, post1, tail, -, hu, rfl, hr, -, -⟩ :=
      hmain.inLoop hlog (Or.inl rfl)
    have hf := hr.follows pre1 _ post1 hu
    simp only [Follows] at hf
    rcases hf with ⟨hnil, -⟩ | ⟨st2, sts2, res, rest, hs2, rfl⟩
    · rw [hsteps] at hnil
      simp at hnil
    · rw [hsteps] at hs2
      simp only [List.cons.injEq] at hs2
      obtain ⟨rfl, rfl⟩ := hs2
      exact ⟨_, res, rest ++ tail, _, rfl, rfl, rfl, rfl⟩

/-- The amended C8 on the reference store: main from the empty store begins
with the Create of `task`, and an attempt against the store that holds the
created task writes the busybox candidate. -/
theorem scenario_payloads_witness :
    (∃ res, (newCalls (quiet ⟨[], 0⟩) (main clusterClient (quiet ⟨[], 0⟩)).2).head? =
      some (Call.Create task res)) ∧
    (clusterClient.Get (quiet (⟨[⟨"sample-task", "1",
      [⟨"step1", "ubuntu", ["echo", "Hello, Tekton!"]⟩]⟩], 1⟩ : Cluster)).store
        "sample-task").1 =
      .ok ⟨"sample-task", "1", [⟨"step1", "ubuntu", ["echo", "Hello, Tekton!"]⟩]⟩ ∧
    ∃ obj res st1,
      newCalls (quiet (⟨[⟨"sample-task", "1",
          [⟨"step1", "ubuntu", ["echo", "Hello, Tekton!"]⟩]⟩], 1⟩ : Cluster))
        (updateAttempt clusterClient (quiet ⟨[⟨"sample-task", "1",
          [⟨"step1", "ubuntu", ["echo", "Hello, Tekton!"]⟩]⟩], 1⟩)).2 =
        [Call.Get "sample-task"
          (.ok ⟨"sample-task", "1", [⟨"step1", "ubuntu", ["echo", "Hello, Tekton!"]⟩]⟩),
          Call.Update obj res] ∧
      obj.Steps = st1 :: [] ∧ st1.Image = "busybox" ∧
      st1.Command = ["echo", "Updated Hello Tekton"] :=
  ⟨(scenario_payloads clusterClient (quiet ⟨[], 0⟩)).1, rfl,
    (scenario_payloads clusterClient (quiet ⟨[], 0⟩)).2.2.2.2.1
      (quiet ⟨[⟨"sample-task", "1", [⟨"step1", "ubuntu", ["echo", "Hello, Tekton!"]⟩]⟩], 1⟩)
      ⟨"sample-task", "1", [⟨"step1", "ubuntu", ["echo", "Hello, Tekton!"]⟩]⟩
      ⟨"step1", "ubuntu", ["echo", "Hello, Tekton!"]⟩ [] rfl rfl⟩

/-- The retry loop panics on an index only right after a Get answered with a
task that has no steps. -/
theorem RetryRun.indexPanic {σ : Type} {c : TaskInterface σ} {n : Nat} {tr : List Call}
    {r : Except Panic (Option StatusError)} (h : RetryRun c n tr r) :
    ∀ i l, r = .error (.indexOutOfRange i l) →
      ∃ pre t, tr = pre ++ [Call.Get "sample-task" (.ok t)] ∧ t.Steps = [] := by
  induction h with
  | noSteps n s t hget hsteps => intro i l _; exact ⟨[], t, rfl, hsteps⟩
  | retried n s s2 t st sts e rest r hget hsteps hupd hc hrest ih =>
    intro i l hr
    obtain ⟨pre, t2, rfl, h2⟩ := ih i l hr
    exact ⟨_ :: _ :: pre, t2, rfl, h2⟩
  | _ => intro i l hr; simp at hr

/-- C10: whatever the store answers.  For an update attempt from any world
whose Get is answered with a task `t`: (1) when the steps of `t` are
`st :: sts`, the attempt does not panic; it makes exactly two calls, that Get
and an Update, and the object written has the name of `t`, the version token of
`t`, and the steps of `t` with only the image and the command of the first step
changed; (2) when `t` has no steps, the attempt panics on the index 0 and the
Get is its only call: no write is sent.  (3) For every run of main: main panics
on an index only when its last call was a Create or a Get answered with a task
without steps, so no index-0 access of a resource that has a step fails. -/
theorem first_step_access {σ : Type} (c : TaskInterface σ) (w : World σ) :
    (∀ (w2 : World σ) (t : Task), (c.Get w2.store "sample-task").1 = .ok t →
      (∀ st sts, t.Steps = st :: sts →
        ∃ obj res o,
          (updateAttempt c w2).1 = .ok o ∧
          newCalls w2 (updateAttempt c w2).2 =
            [Call.Get "sample-task" (.ok t), Call.Update obj res] ∧
          obj.Name = t.Name ∧ obj.ResourceVersion = t.ResourceVersion ∧
          obj.Steps =
            { Name := st.Name, Image := "busybox", Command := ["echo", "Updated Hello Tekton"] }
              :: sts) ∧
      (t.Steps = [] →
        (updateAttempt c w2).1 = .error (.indexOutOfRange 0 0) ∧
        newCalls w2 (updateAttempt c w2).2 = [Call.Get "sample-task" (.ok t)])) ∧
    (∀ i l, (main c w).1 = .error (.indexOutOfRange i l) →
      ∃ pre t2, t2.Steps = [] ∧
        (newCalls w (main c w).2 = pre ++ [Call.Create task (.ok t2)] ∨
          newCalls w (main c w).2 = pre ++ [Call.Get "sample-task" (.ok t2)])) := by
  refine ⟨fun w2 t hget => ⟨?_, ?_⟩, ?_⟩
  · intro st sts hsteps
    rcases updateAttempt_cases c w2 with ⟨e, hg, -⟩ | ⟨t1, hg, hs, -⟩ |
      ⟨t1, st1, sts1, s2, u, hg, hs, -, htr, hr⟩ | ⟨t1, st1, sts1, s2, e, hg, hs, -, htr, hr⟩
    · rw [hget] at hg
      simp at hg
    · rw [hget] at hg
      simp only [Except.ok.injEq] at hg
      subst hg
      rw [hsteps] at hs
      simp at hs
    · rw [hget] at hg
      simp only [Except.ok.injEq] at hg
      subst hg
      rw [hsteps] at hs
      simp only [List.cons.injEq] at hs
      obtain ⟨rfl, rfl⟩ := hs
      exact ⟨_, _, _, hr, newCalls_eq htr, rfl, rfl, rfl⟩
    · rw [hget] at hg
      simp only [Except.ok.injEq] at hg
      subst hg
      rw [hsteps] at hs
      simp only [List.cons.injEq] at hs
      obtain ⟨rfl, rfl⟩ := hs
      exact ⟨_, _, _, hr, newCalls_eq htr, rfl, rfl, rfl⟩
  · intro hsteps
    rcases updateAttempt_cases c w2 with ⟨e, hg, -⟩ | ⟨t1, hg, hs, htr, hr⟩ |
      ⟨t1, st1, sts1, s2, u, hg, hs, -⟩ | ⟨t1, st1, sts1, s2, e, hg, hs, -⟩
    · rw [hget] at hg
      simp at hg
    · rw [hget] at hg
      simp only [Except.ok.injEq] at hg
      subst hg
      exact ⟨hr, newCalls_eq htr⟩
    · rw [hget] at hg
      simp only [Except.ok.injEq] at hg
      subst hg
      rw [hsteps] at hs
      simp at hs
    · rw [hget] at hg
      simp only [Except.ok.injEq] at hg
      subst hg
      rw [hsteps] at hs
      simp at hs
  · intro i l hmain
    obtain ⟨tr, htr, hrun⟩ := main_run c w
    rw [newCalls_eq htr]
    rw [hmain] at hrun
    generalize hp : (Except.error (Panic.indexOutOfRange i l) : Except Panic Unit) = r at hrun
    cases hrun with
    | createdNoSteps t2 hs => exact ⟨[], t2, hs, Or.inl rfl⟩
    | updatePanicked t2 utr p hr =>
      simp only [Except.error.injEq] at hp
      subst hp
      obtain ⟨pre, t3, rfl, h3⟩ := hr.indexPanic i l rfl
      exact ⟨_ :: pre, t3, h3, Or.inr rfl⟩
    | _ => simp at hp

/-- The runs of C10 on the client whose Get answers a task without steps, and
whose Create echoes `task` with its one step: the attempt panics on the index
after its Get and sends no write, and main, which panics on the index, ends
with that Get and not with the Create. -/
theorem first_step_access_witness :
    (stepless.Get (quiet ()).store "sample-task").1 = .ok ⟨"sample-task", "1", []⟩ ∧
    (⟨"sample-task", "1", []⟩ : Task).Steps = [] ∧
    ((updateAttempt stepless (quiet ())).1 = .error (.indexOutOfRange 0 0) ∧
      newCalls (quiet ()) (updateAttempt stepless (quiet ())).2 =
        [Call.Get "sample-task" (.ok ⟨"sample-task", "1", []⟩)]) ∧
    (main stepless (quiet ())).1 = .error (.indexOutOfRange 0 0) ∧
    ∃ pre t2, t2.Steps = [] ∧
      (newCalls (quiet ()) (main stepless (quiet ())).2 =
          pre ++ [Call.Create task (.ok t2)] ∨
        newCalls (quiet ()) (main stepless (quiet ())).2 =
          pre ++ [Call.Get "sample-task" (.ok t2)]) :=
  ⟨rfl, rfl,
    ((first_step_access stepless (quiet ())).1 (quiet ()) ⟨"sample-task", "1", []⟩ rfl).2 rfl,
    rfl, (first_step_access stepless (quiet ())).2 0 0 rfl⟩

end CRDTypedClientset
